import Mathlib

/-!
# Verification of the Art Basel HK sales dashboard core pipeline

Shallow embedding of the data-derivation, aggregation and filter logic of
`dashboard.py` (the single source file of the repository).  Prices and years
are modelled as exact rationals (`ℚ`); pandas "NaN from failed numeric
coercion" is modelled as `Option`; an uncaught pandas exception (KeyError,
qcut ValueError, IndexError) is modelled as a `none` result of the
corresponding partial operation.

Conventions taken from the source:
* `pd.cut(..., bins=[0,10000,50000,200000,inf], labels=...)` uses pandas'
  default right-closed intervals `(lo, hi]` (dashboard.py lines 24-28).
* `pd.qcut(..., q=4)` computes the 0/25/50/75/100-percent quantiles of the
  column with numpy's linear interpolation, raises `ValueError` when the
  resulting bin edges are not unique, and otherwise labels each value by the
  right-closed bin it falls into, the lowest bin including the minimum
  (dashboard.py lines 476-480).
* `groupby(k)` produces one group per distinct key value, dropping rows whose
  key is NaN (the year column after `pd.to_numeric(..., errors='coerce')`,
  dashboard.py line 352).  Group-key order (pandas sorts keys) only affects
  presentation, never the aggregated numbers we verify; for string keys we
  keep the distinct values in occurrence order, for year keys (where the code
  takes positional `iloc[0]` / `iloc[-1]`) we sort numerically as pandas does.
* `DataFrame.round(2)` is numpy round-half-to-even at two decimals.
-/

namespace ArtBasel

/-- One sale record (one row of `sales.csv` after loading).  `anio` is the
`Año` column already passed through `pd.to_numeric(..., errors='coerce')`:
`none` is a value that failed numeric coercion (NaN).  The optional columns
`País`, `Tipo_Artista`, `Estado_Venta` are modelled as always-present string
fields; the claims that depend on their presence quantify over tables of such
rows. -/
structure Row where
  artista : String
  galeria : String
  precioMinimo : ℚ
  precioMaximo : ℚ
  anio : Option ℚ
  pais : String
  tipoArtista : String
  estadoVenta : String
deriving DecidableEq

/-- `df['Precio Promedio'] = (df['Precio Mínimo'] + df['Precio Máximo']) / 2`
(dashboard.py line 21). -/
def precioPromedio (r : Row) : ℚ := (r.precioMinimo + r.precioMaximo) / 2

/-- numpy round-half-to-even of a rational to an integer. -/
def roundHalfEven (x : ℚ) : ℤ :=
  if x - ⌊x⌋ < 1 / 2 then ⌊x⌋
  else if 1 / 2 < x - ⌊x⌋ then ⌊x⌋ + 1
  else if ⌊x⌋ % 2 = 0 then ⌊x⌋ else ⌊x⌋ + 1

/-- `.round(2)`: numpy round-half-to-even at two decimal places. -/
def round2 (x : ℚ) : ℚ := (roundHalfEven (x * 100) : ℚ) / 100

/-- The four fixed price-range labels
`['< $10K', '$10K - $50K', '$50K - $200K', '$200K+']` (dashboard.py line 27). -/
inductive Rango where
  | menos10K
  | de10Ka50K
  | de50Ka200K
  | mas200K
deriving DecidableEq, BEq

/-- `pd.cut(df['Precio Promedio'], bins=[0, 10000, 50000, 200000, inf],
labels=...)` (dashboard.py lines 24-28).  pandas' default is right-closed
intervals `(lo, hi]`; a value outside every bin (here `x ≤ 0`) becomes NaN,
modelled as `none`. -/
def rangoDePrecios (x : ℚ) : Option Rango :=
  if x ≤ 0 then none
  else if x ≤ 10000 then some .menos10K
  else if x ≤ 50000 then some .de10Ka50K
  else if x ≤ 200000 then some .de50Ka200K
  else some .mas200K

/-- The four quartile labels `['Básico', 'Medio', 'Premium', 'Ultra Premium']`
(dashboard.py line 479). -/
inductive Seg where
  | basico
  | medio
  | premium
  | ultraPremium
deriving DecidableEq, BEq

/-- The four segment labels in pandas' categorical order. -/
def allSegs : List Seg := [.basico, .medio, .premium, .ultraPremium]

/-- Ascending sort of a list of values, as pandas sorts group keys /
numpy sorts before taking quantiles. -/
def sortAsc (l : List ℚ) : List ℚ := List.insertionSort (· ≤ ·) l

/-- numpy linear interpolation at fractional index `m / den` into the sorted
list `s`: with `j = ⌊m/den⌋` (here natural division) and fractional part
`frac = (m % den)/den`, the interpolated value is
`s[j] + frac * (s[j+1] - s[j])`; out-of-range reads clamp to `s[j]`. -/
def interp (s : List ℚ) (m den : ℕ) : ℚ :=
  s.getD (m / den) 0 +
    ((m % den : ℕ) : ℚ) / (den : ℚ) *
      (s.getD (m / den + 1) (s.getD (m / den) 0) - s.getD (m / den) 0)

/-- numpy quantile of an already-sorted list at probability `num/den`
(linear interpolation): the fractional index is `(num/den) * (n - 1)`. -/
def quantileOfSorted (s : List ℚ) (num den : ℕ) : ℚ :=
  interp s (num * (s.length - 1)) den

/-- `Series.quantile(num/den)` with numpy's default linear interpolation. -/
def quantile (vs : List ℚ) (num den : ℕ) : ℚ :=
  quantileOfSorted (sortAsc vs) num den

/-- Label a value by its quartile bin, given the three interior cut points:
right-closed bins, the lowest bin containing everything up to `q1`. -/
def segLabel (q1 q2 q3 x : ℚ) : Seg :=
  if x ≤ q1 then .basico
  else if x ≤ q2 then .medio
  else if x ≤ q3 then .premium
  else .ultraPremium

/-- `pd.qcut(df['Precio Promedio'], q=4, labels=[...])` (dashboard.py lines
476-480).  The bin edges are the quantiles at 0, 1/4, 1/2, 3/4, 1; pandas
raises `ValueError: Bin edges must be unique` when they contain duplicates
(modelled as `none`), otherwise every value receives the label of its bin,
preserving row order. -/
def qcut4 (vs : List ℚ) : Option (List Seg) :=
  let s := sortAsc vs
  let mn := quantileOfSorted s 0 4
  let q1 := quantileOfSorted s 1 4
  let q2 := quantileOfSorted s 2 4
  let q3 := quantileOfSorted s 3 4
  let mx := quantileOfSorted s 4 4
  if [mn, q1, q2, q3, mx].Nodup then some (vs.map (segLabel q1 q2 q3))
  else none

/-- `premium_threshold = df['Precio Promedio'].quantile(0.9)` over the full,
unfiltered table (dashboard.py line 482). -/
def premiumThreshold (tbl : List Row) : ℚ := quantile (tbl.map precioPromedio) 9 10

/-- `premium_works = df[df['Precio Promedio'] > premium_threshold]`
(dashboard.py line 483): strict inequality against the full-table threshold. -/
def premiumWorks (tbl : List Row) : List Row :=
  tbl.filter fun r => decide (premiumThreshold tbl < precioPromedio r)

/-- `participacion_premium = (valor_premium / df['Precio Promedio'].sum()) * 100`
(dashboard.py line 498). -/
def participacionPremium (tbl : List Row) : ℚ :=
  ((premiumWorks tbl).map precioPromedio).sum / (tbl.map precioPromedio).sum * 100

/-- One row of `gallery_metrics` (dashboard.py lines 127-132): the aggregated
columns after the whole frame is `.round(2)`-ed, plus the derived
`Obras por Artista` ratio, itself computed from the rounded columns and then
rounded. -/
structure GalleryStats where
  valorTotal : ℚ
  precioPromedio : ℚ
  numObras : ℚ
  numArtistas : ℚ
  obrasPorArtista : ℚ

/-- The `gallery_metrics` row for gallery `g`:
`df.groupby('Galería').agg({'Precio Promedio': ['sum','mean','count'],
'Artista': 'nunique'}).round(2)` followed by
`gallery_metrics['Obras por Artista'] =
 (gallery_metrics['Número de Obras'] / gallery_metrics['Número de Artistas']).round(2)`
(dashboard.py lines 127-132). -/
def galleryStatsFor (tbl : List Row) (g : String) : GalleryStats :=
  let rows := tbl.filter fun r => decide (r.galeria = g)
  let avgs := rows.map precioPromedio
  let nObras := round2 ((rows.length : ℕ) : ℚ)
  let nArtistas := round2 (((rows.map (·.artista)).dedup.length : ℕ) : ℚ)
  { valorTotal := round2 avgs.sum
    precioPromedio := round2 (avgs.sum / (avgs.length : ℚ))
    numObras := nObras
    numArtistas := nArtistas
    obrasPorArtista := round2 (nObras / nArtistas) }

/-- `df.groupby('Galería')`: one summary row per distinct gallery.  (The code
then sorts by `Valor Total` descending for display; ordering affects no
aggregated number verified here.) -/
def galleryAgg (tbl : List Row) : List (String × GalleryStats) :=
  ((tbl.map (·.galeria)).dedup).map fun g => (g, galleryStatsFor tbl g)

/-- `gallery_metrics['Obras por Artista'].mean()` — the summary KPI
`Promedio Obras/Artista` (dashboard.py line 189), a mean over the per-gallery
(rounded) ratio column. -/
def promedioObrasArtista (tbl : List Row) : ℚ :=
  let xs := (galleryAgg tbl).map fun gs => gs.2.obrasPorArtista
  xs.sum / (xs.length : ℚ)

/-- The same summary mean as the spec words it: taken over the *unrounded*
per-gallery ratios works / distinct artists.  Stated only for comparison with
`promedioObrasArtista`, the value the code actually computes. -/
def promedioObrasArtistaUnrounded (tbl : List Row) : ℚ :=
  let xs := ((tbl.map (·.galeria)).dedup).map fun g =>
    let rows := tbl.filter fun r => decide (r.galeria = g)
    ((rows.length : ℕ) : ℚ) / (((rows.map (·.artista)).dedup.length : ℕ) : ℚ)
  xs.sum / (xs.length : ℚ)

/-- One row of `artist_metrics` (dashboard.py lines 236-240). -/
structure ArtistStats where
  valorTotal : ℚ
  precioPromedio : ℚ
  numObras : ℚ
  numGalerias : ℚ

/-- The `artist_metrics` row for artist `a`:
`df.groupby('Artista').agg({'Precio Promedio': ['sum','mean','count'],
'Galería': 'nunique'}).round(2)` (dashboard.py lines 236-240). -/
def artistStatsFor (tbl : List Row) (a : String) : ArtistStats :=
  let rows := tbl.filter fun r => decide (r.artista = a)
  let avgs := rows.map precioPromedio
  { valorTotal := round2 avgs.sum
    precioPromedio := round2 (avgs.sum / (avgs.length : ℚ))
    numObras := round2 ((rows.length : ℕ) : ℚ)
    numGalerias := round2 (((rows.map (·.galeria)).dedup.length : ℕ) : ℚ) }

/-- `df.groupby('Artista')`: one summary row per distinct artist. -/
def artistAgg (tbl : List Row) : List (String × ArtistStats) :=
  ((tbl.map (·.artista)).dedup).map fun a => (a, artistStatsFor tbl a)

/-- The sorted list of distinct valid (numeric-coercible) years:
`df['Año'] = pd.to_numeric(df['Año'], errors='coerce')` then
`df.groupby('Año')` — NaN keys are dropped, keys sorted ascending
(dashboard.py lines 352-353). -/
def yearKeys (tbl : List Row) : List ℚ := sortAsc ((tbl.filterMap (·.anio)).dedup)

/-- The rows of a given (valid) year group. -/
def rowsOfYear (tbl : List Row) (y : ℚ) : List Row :=
  tbl.filter fun r => decide (r.anio = some y)

/-- `year_stats['Número de Obras']` at year `y` (count column of the
`.round(2)`-ed aggregate, dashboard.py lines 353-358). -/
def obrasAt (tbl : List Row) (y : ℚ) : ℚ :=
  round2 (((rowsOfYear tbl y).length : ℕ) : ℚ)

/-- `year_stats['Precio Promedio']` at year `y` (mean column, rounded). -/
def precioAt (tbl : List Row) (y : ℚ) : ℚ :=
  round2 ((((rowsOfYear tbl y).map precioPromedio).sum) / (((rowsOfYear tbl y).length : ℕ) : ℚ))

/-- `year_stats['Número de Artistas']` at year `y` (nunique column, rounded). -/
def artistasAt (tbl : List Row) (y : ℚ) : ℚ :=
  round2 ((((rowsOfYear tbl y).map (·.artista)).dedup.length : ℕ) : ℚ)

/-- `year_stats['Número de Galerías']` at year `y` (nunique column, rounded). -/
def galeriasAt (tbl : List Row) (y : ℚ) : ℚ :=
  round2 ((((rowsOfYear tbl y).map (·.galeria)).dedup.length : ℕ) : ℚ)

/-- The growth-metric pattern of dashboard.py lines 363-372:
`((column.iloc[-1] / column.iloc[0]) - 1) * 100` over `year_stats`, whose
index is the ascending list of valid years.  When `year_stats` is empty
(`iloc[0]` raises IndexError, aborting the script) the result is `none`. -/
def crecimiento (tbl : List Row) (f : ℚ → ℚ) : Option ℚ :=
  match (yearKeys tbl).head?, (yearKeys tbl).getLast? with
  | some y0, some y1 => some ((f y1 / f y0 - 1) * 100)
  | _, _ => none

/-- `crecimiento_obras` (dashboard.py line 363). -/
def crecimientoObras (tbl : List Row) : Option ℚ := crecimiento tbl (obrasAt tbl)

/-- `crecimiento_precio` (dashboard.py line 366). -/
def crecimientoPrecio (tbl : List Row) : Option ℚ := crecimiento tbl (precioAt tbl)

/-- `crecimiento_artistas` (dashboard.py line 369). -/
def crecimientoArtistas (tbl : List Row) : Option ℚ := crecimiento tbl (artistasAt tbl)

/-- `crecimiento_galerias` (dashboard.py line 372). -/
def crecimientoGalerias (tbl : List Row) : Option ℚ := crecimiento tbl (galeriasAt tbl)

/-- Minimum of a nonempty list of rationals (0 on the empty list). -/
def listMin : List ℚ → ℚ
  | [] => 0
  | a :: t => t.foldl min a

/-- Maximum of a nonempty list of rationals (0 on the empty list). -/
def listMax : List ℚ → ℚ
  | [] => 0
  | a :: t => t.foldl max a

/-- The minimum valid year present in the table. -/
def minValidYear (tbl : List Row) : ℚ := listMin (tbl.filterMap (·.anio))

/-- The maximum valid year present in the table. -/
def maxValidYear (tbl : List Row) : ℚ := listMax (tbl.filterMap (·.anio))

/-- One row of `segment_stats` (dashboard.py lines 506-513). -/
structure SegStats where
  numObras : ℚ
  precioPromedio : ℚ
  valorTotal : ℚ

/-- The `segment_stats` row for label `b`:
`df.groupby('Segmento de Precio').agg({'Precio Promedio':
['count','mean','sum']}).round(2)` — the segment column is categorical, so
every one of the four labels yields a group (possibly empty: count 0,
sum 0.0).  `segs` is the per-row label column produced by `qcut4`. -/
def segStatsFor (tbl : List Row) (segs : List Seg) (b : Seg) : SegStats :=
  let avgs := ((tbl.zip segs).filter fun rs => decide (rs.2 = b)).map fun rs => precioPromedio rs.1
  { numObras := round2 ((avgs.length : ℕ) : ℚ)
    precioPromedio := round2 (avgs.sum / (avgs.length : ℚ))
    valorTotal := round2 avgs.sum }

/-- Sum of the `Número de Obras` column of `segment_stats`. -/
def sumSegObras (tbl : List Row) (segs : List Seg) : ℚ :=
  (allSegs.map fun b => (segStatsFor tbl segs b).numObras).sum

/-- Sum of the `Valor Total` column of `segment_stats`. -/
def sumSegValor (tbl : List Row) (segs : List Seg) : ℚ :=
  (allSegs.map fun b => (segStatsFor tbl segs b).valorTotal).sum

/-- `segment_stats['% Obras'] = (segment_stats['Número de Obras'] /
segment_stats['Número de Obras'].sum()) * 100` (dashboard.py line 512). -/
def pctObrasSeg (tbl : List Row) (segs : List Seg) (b : Seg) : ℚ :=
  (segStatsFor tbl segs b).numObras / sumSegObras tbl segs * 100

/-- `segment_stats['% Valor'] = (segment_stats['Valor Total'] /
segment_stats['Valor Total'].sum()) * 100` (dashboard.py line 513). -/
def pctValorSeg (tbl : List Row) (segs : List Seg) (b : Seg) : ℚ :=
  (segStatsFor tbl segs b).valorTotal / sumSegValor tbl segs * 100

/-- One row of `region_stats` (dashboard.py lines 564-569). -/
structure RegionStats where
  numObras : ℚ
  precioPromedio : ℚ
  valorTotal : ℚ
  numArtistas : ℚ
  numGalerias : ℚ

/-- The `region_stats` row for country `p` (dashboard.py lines 564-569). -/
def regionStatsFor (tbl : List Row) (p : String) : RegionStats :=
  let rows := tbl.filter fun r => decide (r.pais = p)
  let avgs := rows.map precioPromedio
  { numObras := round2 ((rows.length : ℕ) : ℚ)
    precioPromedio := round2 (avgs.sum / (avgs.length : ℚ))
    valorTotal := round2 avgs.sum
    numArtistas := round2 (((rows.map (·.artista)).dedup.length : ℕ) : ℚ)
    numGalerias := round2 (((rows.map (·.galeria)).dedup.length : ℕ) : ℚ) }

/-- `df.groupby('País')` (only run when the column is present). -/
def regionAgg (tbl : List Row) : List (String × RegionStats) :=
  ((tbl.map (·.pais)).dedup).map fun p => (p, regionStatsFor tbl p)

/-- One row of `artist_type_stats` (dashboard.py lines 613-617). -/
structure TipoStats where
  numObras : ℚ
  precioPromedio : ℚ
  valorTotal : ℚ
  numArtistas : ℚ

/-- The `artist_type_stats` row for type `t` (dashboard.py lines 613-617). -/
def tipoStatsFor (tbl : List Row) (t : String) : TipoStats :=
  let rows := tbl.filter fun r => decide (r.tipoArtista = t)
  let avgs := rows.map precioPromedio
  { numObras := round2 ((rows.length : ℕ) : ℚ)
    precioPromedio := round2 (avgs.sum / (avgs.length : ℚ))
    valorTotal := round2 avgs.sum
    numArtistas := round2 (((rows.map (·.artista)).dedup.length : ℕ) : ℚ) }

/-- `df.groupby('Tipo_Artista')` (only run when the column is present). -/
def tipoAgg (tbl : List Row) : List (String × TipoStats) :=
  ((tbl.map (·.tipoArtista)).dedup).map fun t => (t, tipoStatsFor tbl t)

/-- One row of `ventas_stats` (dashboard.py lines 655-658). -/
structure VentasStats where
  numObras : ℚ
  precioPromedio : ℚ
  valorTotal : ℚ

/-- The `ventas_stats` row for status `e` (dashboard.py lines 655-658). -/
def ventasStatsFor (tbl : List Row) (e : String) : VentasStats :=
  let rows := tbl.filter fun r => decide (r.estadoVenta = e)
  let avgs := rows.map precioPromedio
  { numObras := round2 ((rows.length : ℕ) : ℚ)
    precioPromedio := round2 (avgs.sum / (avgs.length : ℚ))
    valorTotal := round2 avgs.sum }

/-- `df.groupby('Estado_Venta')` (only run when the column is present). -/
def ventasAgg (tbl : List Row) : List (String × VentasStats) :=
  ((tbl.map (·.estadoVenta)).dedup).map fun e => (e, ventasStatsFor tbl e)

/-- `obras_vendidas = len(df[df['Estado_Venta'] == 'Vendida'])`
(dashboard.py line 664): no exception regardless of the status vocabulary. -/
def obrasVendidas (tbl : List Row) : ℕ :=
  (tbl.filter fun r => decide (r.estadoVenta = "Vendida")).length

/-- `tasa_venta = (obras_vendidas / total_obras) * 100` (dashboard.py
line 665). -/
def tasaVenta (tbl : List Row) : ℚ :=
  ((obrasVendidas tbl : ℕ) : ℚ) / ((tbl.length : ℕ) : ℚ) * 100

/-- `ventas_stats.loc['Vendida', 'Valor Total']` (dashboard.py line 685):
a `.loc` lookup by label that raises an uncaught `KeyError` (modelled as
`none`) when no row has status `'Vendida'`. -/
def valorTotalVendido (tbl : List Row) : Option ℚ :=
  ((ventasAgg tbl).lookup "Vendida").map fun s => s.valorTotal

/-- The interactive filter selections (dashboard.py lines 714-770): one
multiselect per categorical dimension (empty list = nothing selected) and the
inclusive price range slider. -/
structure Filtros where
  selGaleria : List String
  precioLo : ℚ
  precioHi : ℚ
  selSegmento : List Seg
  selPais : List String
  selTipoArtista : List String
  selEstadoVenta : List String

/-- The combined row mask (dashboard.py lines 773-790): starts all-`True`,
then `&=` each predicate; a multiselect contributes only when its selection
is nonempty (`if selected_x:`), the price-range predicate is always active
with inclusive bounds.  `s` is the row's `Segmento de Precio` label. -/
def maskRow (f : Filtros) (r : Row) (s : Seg) : Bool :=
  (f.selGaleria.isEmpty || f.selGaleria.contains r.galeria) &&
  (decide (f.precioLo ≤ precioPromedio r) && decide (precioPromedio r ≤ f.precioHi)) &&
  (f.selSegmento.isEmpty || f.selSegmento.contains s) &&
  (f.selPais.isEmpty || f.selPais.contains r.pais) &&
  (f.selTipoArtista.isEmpty || f.selTipoArtista.contains r.tipoArtista) &&
  (f.selEstadoVenta.isEmpty || f.selEstadoVenta.contains r.estadoVenta)

/-- `df_filtered = df[mask]` (dashboard.py line 792), with `segs` the
per-row segment column. -/
def dfFiltered (tbl : List Row) (segs : List Seg) (f : Filtros) : List Row :=
  ((tbl.zip segs).filter fun rs => maskRow f rs.1 rs.2).map Prod.fst

/-! ## Column sums over the per-dimension aggregates (claim C7) -/

/-- Sum of the `Número de Obras` column of `gallery_metrics`. -/
def sumGalleryObras (tbl : List Row) : ℚ :=
  ((galleryAgg tbl).map fun gs => gs.2.numObras).sum

/-- Sum of the `Número de Obras` column of `artist_metrics`. -/
def sumArtistObras (tbl : List Row) : ℚ :=
  ((artistAgg tbl).map fun as => as.2.numObras).sum

/-- Sum of the `Número de Obras` column of `region_stats`. -/
def sumRegionObras (tbl : List Row) : ℚ :=
  ((regionAgg tbl).map fun ps => ps.2.numObras).sum

/-- Sum of the `Valor Total` column of `region_stats`. -/
def sumRegionValor (tbl : List Row) : ℚ :=
  ((regionAgg tbl).map fun ps => ps.2.valorTotal).sum

/-- Sum of the `Número de Obras` column of `artist_type_stats`. -/
def sumTipoObras (tbl : List Row) : ℚ :=
  ((tipoAgg tbl).map fun ts => ts.2.numObras).sum

/-- Sum of the `Número de Obras` column of `ventas_stats`. -/
def sumVentasObras (tbl : List Row) : ℚ :=
  ((ventasAgg tbl).map fun es => es.2.numObras).sum

/-- Sum of the `Número de Obras` column of `year_stats` (NaN year rows are
dropped by `groupby('Año')`). -/
def sumYearObras (tbl : List Row) : ℚ :=
  ((yearKeys tbl).map fun y => obrasAt tbl y).sum

/-- Sum of the `% Obras` column of `segment_stats`. -/
def sumPctObrasSeg (tbl : List Row) (segs : List Seg) : ℚ :=
  (allSegs.map fun b => pctObrasSeg tbl segs b).sum

/-- Sum of the `% Valor` column of `segment_stats`. -/
def sumPctValorSeg (tbl : List Row) (segs : List Seg) : ℚ :=
  (allSegs.map fun b => pctValorSeg tbl segs b).sum

/-- `region_stats['% Valor']` (dashboard.py line 575). -/
def pctValorPais (tbl : List Row) (p : String) : ℚ :=
  (regionStatsFor tbl p).valorTotal / sumRegionValor tbl * 100

/-- Sum of the `% Valor` column of `region_stats`. -/
def sumPctValorPais (tbl : List Row) : ℚ :=
  (((tbl.map (·.pais)).dedup).map fun p => pctValorPais tbl p).sum

/-! ## Concrete tables used as witnesses and counterexamples -/

/-- A concrete row builder: artist, gallery, a price used as both minimum and
maximum (so the average equals it), year, sale status. -/
def mkRow (a g : String) (p : ℚ) (y : Option ℚ) (e : String) : Row :=
  ⟨a, g, p, p, y, "HK", "Pintor", e⟩

/-- A row whose average price is exactly 10000 (min 8000, max 12000). -/
def rowC1 : Row := ⟨"A", "G", 8000, 12000, some 2018, "HK", "Pintor", "Vendida"⟩

/-- Five rows with pairwise distinct average prices. -/
def tblC2W : List Row :=
  [mkRow "A" "G1" 10 (some 2018) "Vendida", mkRow "B" "G2" 20 (some 2018) "Vendida",
   mkRow "C" "G3" 30 (some 2019) "Vendida", mkRow "D" "G4" 40 (some 2019) "Vendida",
   mkRow "E" "G5" 50 (some 2019) "Vendida"]

/-- Four rows with average prices 1, 2, 2, 3: more than a quarter of the rows
share the value 2, yet the qcut bin edges (1, 7/4, 2, 9/4, 3) are unique. -/
def tblC2X : List Row :=
  [mkRow "A" "G1" 1 (some 2018) "Vendida", mkRow "B" "G2" 2 (some 2018) "Vendida",
   mkRow "C" "G3" 2 (some 2018) "Vendida", mkRow "D" "G4" 3 (some 2018) "Vendida"]

/-- Two rows in year 2018 and three rows in year 2019 (works ratio 150/100). -/
def tblC3W : List Row :=
  [mkRow "A" "G1" 10 (some 2018) "Vendida", mkRow "B" "G2" 10 (some 2018) "Vendida",
   mkRow "C" "G3" 10 (some 2019) "Vendida", mkRow "D" "G4" 10 (some 2019) "Vendida",
   mkRow "E" "G5" 10 (some 2019) "Vendida"]

/-- Three rows, all in the single year 2018. -/
def tblC4 : List Row :=
  [mkRow "A" "G1" 10 (some 2018) "Vendida", mkRow "B" "G2" 20 (some 2018) "Vendida",
   mkRow "C" "G3" 30 (some 2018) "Vendida"]

/-- Two rows whose sale status vocabulary does not contain `"Vendida"`. -/
def tblC5X : List Row :=
  [mkRow "A" "G1" 10 (some 2018) "Disponible", mkRow "B" "G2" 20 (some 2018) "Disponible"]

/-- Three rows, two of them sold. -/
def tblC5W : List Row :=
  [mkRow "A" "G1" 10 (some 2018) "Vendida", mkRow "B" "G2" 20 (some 2018) "Disponible",
   mkRow "C" "G3" 30 (some 2018) "Vendida"]

/-- Gallery `G1` holds 4 works by 3 distinct artists (ratio 4/3, which rounds
to 1.33), gallery `G2` holds 1 work by 1 artist (ratio 1). -/
def tblC6 : List Row :=
  [mkRow "A" "G1" 10 (some 2018) "Vendida", mkRow "B" "G1" 20 (some 2018) "Vendida",
   mkRow "C" "G1" 30 (some 2018) "Vendida", mkRow "A" "G1" 40 (some 2018) "Vendida",
   mkRow "D" "G2" 50 (some 2018) "Vendida"]

/-- Four rows with distinct prices, one per gallery/artist, all years valid. -/
def tblC7W : List Row :=
  [mkRow "A" "G1" 10 (some 2018) "Vendida", mkRow "B" "G2" 20 (some 2018) "Vendida",
   mkRow "C" "G3" 30 (some 2019) "Vendida", mkRow "D" "G4" 40 (some 2019) "Vendida"]

/-- The segment column `qcut4` produces for `tblC7W`. -/
def segsC7W : List Seg := [.basico, .medio, .premium, .ultraPremium]

/-- Two rows, one of which has a year that fails numeric coercion (NaN). -/
def tblC7X : List Row :=
  [mkRow "A" "G1" 10 (some 2018) "Vendida", mkRow "B" "G2" 20 none "Vendida"]

/-- Ten rows with pairwise distinct average prices 10, 20, ..., 100. -/
def tblC8W : List Row :=
  [mkRow "A" "G1" 10 (some 2018) "Vendida", mkRow "B" "G2" 20 (some 2018) "Vendida",
   mkRow "C" "G3" 30 (some 2018) "Vendida", mkRow "D" "G4" 40 (some 2018) "Vendida",
   mkRow "E" "G5" 50 (some 2018) "Vendida", mkRow "F" "G6" 60 (some 2018) "Vendida",
   mkRow "G" "G7" 70 (some 2018) "Vendida", mkRow "H" "G8" 80 (some 2018) "Vendida",
   mkRow "I" "G9" 90 (some 2018) "Vendida", mkRow "J" "G10" 100 (some 2018) "Vendida"]

/-- Two rows used to exercise the filter stage. -/
def tblC9W : List Row :=
  [mkRow "A" "G1" 10 (some 2018) "Vendida", mkRow "B" "G2" 20 (some 2018) "Vendida"]

/-- A segment column for `tblC9W`. -/
def segsC9W : List Seg := [.basico, .ultraPremium]

/-- All-empty categorical selections, price range = full observed range of
`tblC9W`. -/
def filtrosC9W : Filtros := ⟨[], 10, 20, [], [], [], []⟩

/-- One fixed row used to build the all-identical-price tables of claim C10. -/
def rowC10 : Row := mkRow "A" "G1" 5 (some 2018) "Vendida"

/-- Four rows with average prices 1, 2, 2, 3 (half of the rows share the
value 2): the qcut derivation succeeds on it. -/
def tblC10X : List Row :=
  [mkRow "A" "G1" 1 (some 2018) "Vendida", mkRow "B" "G2" 2 (some 2018) "Vendida",
   mkRow "C" "G3" 2 (some 2018) "Vendida", mkRow "D" "G4" 3 (some 2018) "Vendida"]

/-! ## Generic helper lemmas -/

theorem roundHalfEven_intCast (z : ℤ) : roundHalfEven (z : ℚ) = z := by
  unfold roundHalfEven
  rw [Int.floor_intCast]
  norm_num

theorem round2_intCast (z : ℤ) : round2 (z : ℚ) = z := by
  unfold round2
  rw [show ((z : ℚ) * 100) = ((z * 100 : ℤ) : ℚ) by push_cast; ring, roundHalfEven_intCast]
  push_cast
  ring

theorem round2_natCast (n : ℕ) : round2 ((n : ℕ) : ℚ) = n := by
  simpa using round2_intCast (n : ℤ)

/-- `round2` fixes any integral rational; convenient for numeral arguments. -/
theorem round2_eq_self_int (x : ℚ) (z : ℤ) (h : x = (z : ℚ)) : round2 x = x := by
  rw [h, round2_intCast]

theorem sortAsc_perm (l : List ℚ) : List.Perm (sortAsc l) l :=
  List.perm_insertionSort _ l

theorem sortAsc_sorted (l : List ℚ) : (sortAsc l).Sorted (· ≤ ·) :=
  List.sorted_insertionSort _ l

theorem sortAsc_length (l : List ℚ) : (sortAsc l).length = l.length :=
  (sortAsc_perm l).length_eq

theorem sortAsc_mem {l : List ℚ} {x : ℚ} : x ∈ sortAsc l ↔ x ∈ l :=
  (sortAsc_perm l).mem_iff

theorem foldlMin_mem (t : List ℚ) : ∀ a : ℚ, t.foldl min a ∈ a :: t := by
  induction t with
  | nil => intro a; simp
  | cons b t ih =>
      intro a
      simp only [List.foldl_cons]
      rcases List.mem_cons.mp (ih (min a b)) with h | h
      · rcases min_choice a b with h1 | h1 <;> rw [h, h1] <;> simp
      · simp [List.mem_cons.mpr (Or.inr h)]

theorem foldlMin_le (t : List ℚ) : ∀ (a x : ℚ), x ∈ a :: t → t.foldl min a ≤ x := by
  induction t with
  | nil =>
      intro a x hx
      rcases List.mem_cons.mp hx with h | h
      · subst h; exact le_refl _
      · cases h
  | cons b t ih =>
      intro a x hx
      simp only [List.foldl_cons]
      rcases List.mem_cons.mp hx with h | hx2
      · rw [h]; exact le_trans (ih (min a b) _ (List.mem_cons_self _ _)) (min_le_left a b)
      rcases List.mem_cons.mp hx2 with h | hx3
      · rw [h]; exact le_trans (ih (min a b) _ (List.mem_cons_self _ _)) (min_le_right a b)
      · exact ih (min a b) x (List.mem_cons.mpr (Or.inr hx3))

theorem foldlMax_mem (t : List ℚ) : ∀ a : ℚ, t.foldl max a ∈ a :: t := by
  induction t with
  | nil => intro a; simp
  | cons b t ih =>
      intro a
      simp only [List.foldl_cons]
      rcases List.mem_cons.mp (ih (max a b)) with h | h
      · rcases max_choice a b with h1 | h1 <;> rw [h, h1] <;> simp
      · simp [List.mem_cons.mpr (Or.inr h)]

theorem le_foldlMax (t : List ℚ) : ∀ (a x : ℚ), x ∈ a :: t → x ≤ t.foldl max a := by
  induction t with
  | nil =>
      intro a x hx
      rcases List.mem_cons.mp hx with h | h
      · subst h; exact le_refl _
      · cases h
  | cons b t ih =>
      intro a x hx
      simp only [List.foldl_cons]
      rcases List.mem_cons.mp hx with h | hx2
      · rw [h]; exact le_trans (le_max_left a b) (ih (max a b) _ (List.mem_cons_self _ _))
      rcases List.mem_cons.mp hx2 with h | hx3
      · rw [h]; exact le_trans (le_max_right a b) (ih (max a b) _ (List.mem_cons_self _ _))
      · exact ih (max a b) x (List.mem_cons.mpr (Or.inr hx3))

theorem listMin_mem {l : List ℚ} (h : l ≠ []) : listMin l ∈ l := by
  cases l with
  | nil => cases h rfl
  | cons a t => exact foldlMin_mem t a

theorem listMin_le {l : List ℚ} {x : ℚ} (hx : x ∈ l) : listMin l ≤ x := by
  cases l with
  | nil => cases hx
  | cons a t => exact foldlMin_le t a x hx

theorem listMax_mem {l : List ℚ} (h : l ≠ []) : listMax l ∈ l := by
  cases l with
  | nil => cases h rfl
  | cons a t => exact foldlMax_mem t a

theorem le_listMax {l : List ℚ} {x : ℚ} (hx : x ∈ l) : x ≤ listMax l := by
  cases l with
  | nil => cases hx
  | cons a t => exact le_foldlMax t a x hx

theorem listMin_eq {l : List ℚ} {x : ℚ} (hmem : x ∈ l) (hlb : ∀ y ∈ l, x ≤ y) :
    listMin l = x :=
  le_antisymm (listMin_le hmem) (hlb _ (listMin_mem (List.ne_nil_of_mem hmem)))

theorem listMax_eq {l : List ℚ} {x : ℚ} (hmem : x ∈ l) (hub : ∀ y ∈ l, y ≤ x) :
    listMax l = x :=
  le_antisymm (hub _ (listMax_mem (List.ne_nil_of_mem hmem))) (le_listMax hmem)

theorem sum_map_add {α : Type} (d : List α) (f g : α → ℕ) :
    (d.map fun k => f k + g k).sum = (d.map f).sum + (d.map g).sum := by
  induction d with
  | nil => simp
  | cons a t ih => simp [ih]; omega

theorem sum_ite_eq_one {α : Type} [DecidableEq α] {d : List α} {a : α}
    (hd : d.Nodup) (ha : a ∈ d) :
    (d.map fun k => if a = k then 1 else 0).sum = 1 := by
  induction d with
  | nil => cases ha
  | cons k d ih =>
      rcases List.mem_cons.mp ha with h | ha2
      · subst h
        have hnot : a ∉ d := (List.nodup_cons.mp hd).1
        simp only [List.map_cons, List.sum_cons, if_pos rfl]
        have hz : (d.map fun k => if a = k then 1 else 0).sum = 0 := by
          apply List.sum_eq_zero
          intro x hx
          rcases List.mem_map.mp hx with ⟨c, hc, hxc⟩
          have hac : a ≠ c := fun h => hnot (h ▸ hc)
          simp [← hxc, hac]
        simp [hz]
      · have hak : a ≠ k := fun h => (List.nodup_cons.mp hd).1 (h ▸ ha2)
        simp only [List.map_cons, List.sum_cons, if_neg hak]
        have hone := ih (List.nodup_cons.mp hd).2 ha2
        simp [hone]

theorem sum_countP_eq_length {α : Type} [DecidableEq α] (keys : List α) :
    ∀ d : List α, d.Nodup → (∀ x ∈ keys, x ∈ d) →
      (d.map fun k => keys.countP fun x => decide (x = k)).sum = keys.length := by
  induction keys with
  | nil => intro d _ _; simp
  | cons a t ih =>
      intro d hd hcov
      have hcovt : ∀ x ∈ t, x ∈ d := fun x hx => hcov x (List.mem_cons.mpr (Or.inr hx))
      have ha : a ∈ d := hcov a (List.mem_cons_self _ _)
      have hstep : ∀ k : α, (a :: t).countP (fun x => decide (x = k)) =
          (t.countP fun x => decide (x = k)) + if a = k then 1 else 0 := by
        intro k
        rw [List.countP_cons]
        by_cases h : a = k <;> simp [h]
      calc (d.map fun k => (a :: t).countP fun x => decide (x = k)).sum
      _ = (d.map fun k =>
            (t.countP fun x => decide (x = k)) + if a = k then 1 else 0).sum := by
            congr 1
            exact List.map_congr_left fun k _ => hstep k
      _ = (d.map fun k => t.countP fun x => decide (x = k)).sum +
            (d.map fun k => if a = k then 1 else 0).sum := sum_map_add ..
      _ = t.length + 1 := by rw [ih d hd hcovt, sum_ite_eq_one hd ha]
      _ = (a :: t).length := by simp

theorem countP_and_split {α : Type} (l : List α) (p q : α → Bool) :
    l.countP p = l.countP (fun x => p x && q x) + l.countP fun x => p x && !q x := by
  induction l with
  | nil => simp
  | cons a t ih =>
      simp only [List.countP_cons, ih]
      cases hp : p a <;> cases hq : q a <;> simp [hp, hq] <;> omega

theorem countP_add_countP_not {α : Type} (l : List α) (p : α → Bool) :
    l.countP p + l.countP (fun x => !p x) = l.length := by
  induction l with
  | nil => simp
  | cons a t ih =>
      simp only [List.countP_cons, List.length_cons]
      cases hp : p a <;> simp [hp] <;> omega

/-! ## Lemmas about sorted lists and linear interpolation -/

theorem getD_default_irrel {s : List ℚ} {i : ℕ} (hi : i < s.length) (d : ℚ) :
    s.getD i d = s.getD i 0 := by
  rw [List.getD_eq_getElem s d hi, List.getD_eq_getElem s 0 hi]

theorem sorted_getD_le {s : List ℚ} (hs : s.Sorted (· ≤ ·)) {i j : ℕ}
    (hij : i ≤ j) (hj : j < s.length) : s.getD i 0 ≤ s.getD j 0 := by
  have hi : i < s.length := lt_of_le_of_lt hij hj
  rcases lt_or_eq_of_le hij with hlt | heq
  · rw [List.getD_eq_getElem s 0 hi, List.getD_eq_getElem s 0 hj]
    have := hs.rel_get_of_lt (a := ⟨i, hi⟩) (b := ⟨j, hj⟩) hlt
    simpa [List.get_eq_getElem] using this
  · rw [heq]

theorem sorted_getD_lt {s : List ℚ} (hs : s.Sorted (· < ·)) {i j : ℕ}
    (hij : i < j) (hj : j < s.length) : s.getD i 0 < s.getD j 0 := by
  have hi : i < s.length := lt_trans hij hj
  rw [List.getD_eq_getElem s 0 hi, List.getD_eq_getElem s 0 hj]
  have := hs.rel_get_of_lt (a := ⟨i, hi⟩) (b := ⟨j, hj⟩) hij
  simpa [List.get_eq_getElem] using this

theorem interp_ge {s : List ℚ} (hs : s.Sorted (· ≤ ·)) (m den : ℕ)
    (_hj : m / den < s.length) : s.getD (m / den) 0 ≤ interp s m den := by
  unfold interp
  have hfrac : (0 : ℚ) ≤ ((m % den : ℕ) : ℚ) / (den : ℚ) := by positivity
  by_cases h1 : m / den + 1 < s.length
  · have hle : s.getD (m / den) 0 ≤ s.getD (m / den + 1) (s.getD (m / den) 0) := by
      rw [getD_default_irrel h1]
      exact sorted_getD_le hs (Nat.le_succ _) h1
    nlinarith [mul_nonneg hfrac (sub_nonneg.mpr hle)]
  · rw [List.getD_eq_default _ _ (not_lt.mp h1)]
    simp

theorem interp_lt {s : List ℚ} (hs : s.Sorted (· < ·)) (m den : ℕ) (hden : 0 < den)
    (hj1 : m / den + 1 < s.length) : interp s m den < s.getD (m / den + 1) 0 := by
  unfold interp
  rw [getD_default_irrel hj1]
  have hgap : s.getD (m / den) 0 < s.getD (m / den + 1) 0 :=
    sorted_getD_lt hs (Nat.lt_succ_self _) hj1
  have hfrac1 : ((m % den : ℕ) : ℚ) / (den : ℚ) < 1 := by
    rw [div_lt_one (by exact_mod_cast hden)]
    exact_mod_cast Nat.mod_lt m hden
  have hfrac0 : (0 : ℚ) ≤ ((m % den : ℕ) : ℚ) / (den : ℚ) := by positivity
  nlinarith [mul_lt_mul_of_pos_right hfrac1 (sub_pos.mpr hgap)]

theorem sorted_le_of_lt {s : List ℚ} (hs : s.Sorted (· < ·)) : s.Sorted (· ≤ ·) :=
  hs.imp le_of_lt

theorem interp_mono_strict {s : List ℚ} (hs : s.Sorted (· < ·)) {m m' den : ℕ}
    (hden : 0 < den) (hmm : m < m') (hub : m' ≤ den * (s.length - 1))
    (hn : 1 ≤ s.length) : interp s m den < interp s m' den := by
  have hr' : m' / den < s.length := by
    have h1 : m' / den ≤ s.length - 1 := by
      calc m' / den ≤ den * (s.length - 1) / den := Nat.div_le_div_right hub
      _ = s.length - 1 := Nat.mul_div_cancel_left _ hden
    omega
  have hjj' : m / den ≤ m' / den := Nat.div_le_div_right hmm.le
  rcases lt_or_eq_of_le hjj' with hlt | heq
  · have h1 : m / den + 1 < s.length := lt_of_le_of_lt (Nat.succ_le_of_lt hlt) hr'
    calc interp s m den < s.getD (m / den + 1) 0 := interp_lt hs m den hden h1
    _ ≤ s.getD (m' / den) 0 :=
        sorted_getD_le (sorted_le_of_lt hs) (Nat.succ_le_of_lt hlt) hr'
    _ ≤ interp s m' den := interp_ge (sorted_le_of_lt hs) m' den hr'
  · -- same integer index: compare fractional parts
    have hj1 : m / den + 1 < s.length := by
      rcases lt_or_eq_of_le hub with hub' | hub'
      · have : m' / den < s.length - 1 := by
          rw [Nat.div_lt_iff_lt_mul hden]
          calc m' < den * (s.length - 1) := hub'
          _ = (s.length - 1) * den := Nat.mul_comm _ _
        omega
      · exfalso
        have hj' : m' / den = s.length - 1 := by
          rw [hub', Nat.mul_div_cancel_left _ hden]
        have : den * (s.length - 1) ≤ m := by
          rw [Nat.mul_comm]
          exact (Nat.le_div_iff_mul_le hden).mp (le_of_eq (heq.trans hj').symm)
        omega
    have hgap : s.getD (m / den) 0 < s.getD (m / den + 1) 0 :=
      sorted_getD_lt hs (Nat.lt_succ_self _) hj1
    have hmod : m % den < m' % den := by
      have h1 := Nat.div_add_mod m den
      have h2 := Nat.div_add_mod m' den
      rw [← heq] at h2
      omega
    have hfrac : ((m % den : ℕ) : ℚ) / (den : ℚ) < ((m' % den : ℕ) : ℚ) / (den : ℚ) := by
      have hc : (0 : ℚ) < (den : ℚ) := by exact_mod_cast hden
      exact (div_lt_div_iff_of_pos_right hc).mpr (by exact_mod_cast hmod)
    unfold interp
    rw [← heq, getD_default_irrel hj1]
    nlinarith [mul_lt_mul_of_pos_right hfrac (sub_pos.mpr hgap)]

/-- For a strictly sorted list, the number of elements `≤ q` is `j + 1`
whenever `q` lies in the half-open gap `[s[j], s[j+1])`. -/
theorem countP_le_of_sorted {s : List ℚ} (hs : s.Sorted (· < ·)) (q : ℚ) (j : ℕ)
    (hj : j < s.length) (h1 : s.getD j 0 ≤ q)
    (h2 : j + 1 < s.length → q < s.getD (j + 1) 0) :
    (s.countP fun x => decide (x ≤ q)) = j + 1 := by
  induction s generalizing j with
  | nil => exact absurd hj (by simp)
  | cons a t ih =>
      have ha : a ≤ q := by
        cases j with
        | zero => simpa using h1
        | succ j0 =>
            have hj0 : j0 < t.length := by simpa using hj
            have hlt : a < t.getD j0 0 := by
              rw [List.getD_eq_getElem t 0 hj0]
              exact (List.pairwise_cons.mp hs).1 _ (List.getElem_mem hj0)
            have h1' : t.getD j0 0 ≤ q := by simpa [List.getD_cons_succ] using h1
            linarith
      rw [List.countP_cons_of_pos _ _ (by simpa using ha)]
      cases j with
      | zero =>
          have ht : t.countP (fun x => decide (x ≤ q)) = 0 := by
            rw [List.countP_eq_zero]
            intro x hx
            cases t with
            | nil => cases hx
            | cons b t2 =>
                have hqb : q < b := by
                  have := h2 (by simp)
                  simpa using this
                have hbx : b ≤ x := by
                  rcases List.mem_cons.mp hx with h | h
                  · rw [h]
                  · exact le_of_lt ((List.pairwise_cons.mp (hs.of_cons)).1 x h)
                simp only [decide_eq_true_eq]
                intro hxq
                linarith
          rw [ht]
      | succ j0 =>
          have hj0 : j0 < t.length := by simpa using hj
          have h1' : t.getD j0 0 ≤ q := by simpa [List.getD_cons_succ] using h1
          have h2' : j0 + 1 < t.length → q < t.getD (j0 + 1) 0 := by
            intro h
            have := h2 (by simpa using Nat.succ_lt_succ h)
            simpa [List.getD_cons_succ] using this
          rw [ih hs.of_cons j0 hj0 h1' h2']

/-! ## Lemmas about the year dimension -/

theorem mem_yearKeys {tbl : List Row} {y : ℚ} :
    y ∈ yearKeys tbl ↔ y ∈ tbl.filterMap (·.anio) := by
  unfold yearKeys
  rw [sortAsc_mem, List.mem_dedup]

theorem rowsOfYear_ne_nil {tbl : List Row} {y : ℚ} (hy : y ∈ yearKeys tbl) :
    rowsOfYear tbl y ≠ [] := by
  rcases List.mem_filterMap.mp (mem_yearKeys.mp hy) with ⟨r, hr, ha⟩
  have : r ∈ rowsOfYear tbl y := by
    unfold rowsOfYear
    exact List.mem_filter.mpr ⟨hr, by simp [ha]⟩
  exact List.ne_nil_of_mem this

theorem obrasAt_eq_length {tbl : List Row} {y : ℚ} :
    obrasAt tbl y = (((rowsOfYear tbl y).length : ℕ) : ℚ) := by
  unfold obrasAt
  exact round2_natCast _

theorem obrasAt_ne_zero {tbl : List Row} {y : ℚ} (hy : y ∈ yearKeys tbl) :
    obrasAt tbl y ≠ 0 := by
  rw [obrasAt_eq_length]
  have := List.length_pos.mpr (rowsOfYear_ne_nil hy)
  exact_mod_cast Nat.pos_iff_ne_zero.mp this

theorem artistasAt_ne_zero {tbl : List Row} {y : ℚ} (hy : y ∈ yearKeys tbl) :
    artistasAt tbl y ≠ 0 := by
  unfold artistasAt
  rw [round2_natCast]
  have h1 : ((rowsOfYear tbl y).map (·.artista)) ≠ [] := by
    simpa using rowsOfYear_ne_nil hy
  have h2 : ((rowsOfYear tbl y).map (·.artista)).dedup ≠ [] := by
    intro h
    exact h1 ((List.dedup_eq_nil _).mp h)
  have := List.length_pos.mpr h2
  exact_mod_cast Nat.pos_iff_ne_zero.mp this

theorem galeriasAt_ne_zero {tbl : List Row} {y : ℚ} (hy : y ∈ yearKeys tbl) :
    galeriasAt tbl y ≠ 0 := by
  unfold galeriasAt
  rw [round2_natCast]
  have h1 : ((rowsOfYear tbl y).map (·.galeria)) ≠ [] := by
    simpa using rowsOfYear_ne_nil hy
  have h2 : ((rowsOfYear tbl y).map (·.galeria)).dedup ≠ [] := by
    intro h
    exact h1 ((List.dedup_eq_nil _).mp h)
  have := List.length_pos.mpr h2
  exact_mod_cast Nat.pos_iff_ne_zero.mp this

theorem yearKeys_head_eq_min {tbl : List Row} {y : ℚ} {t : List ℚ}
    (h : yearKeys tbl = y :: t) : minValidYear tbl = y := by
  unfold minValidYear
  apply listMin_eq
  · exact mem_yearKeys.mp (h ▸ List.mem_cons_self y t)
  · intro x hx
    have hx' : x ∈ yearKeys tbl := mem_yearKeys.mpr hx
    have hsorted : (yearKeys tbl).Sorted (· ≤ ·) := sortAsc_sorted _
    rw [h] at hx' hsorted
    rcases List.mem_cons.mp hx' with h2 | h2
    · rw [h2]
    · exact (List.pairwise_cons.mp hsorted).1 x h2

theorem mem_of_getLastSome : ∀ {l : List ℚ} {y : ℚ}, l.getLast? = some y → y ∈ l := by
  intro l
  induction l with
  | nil => intro y h; cases h
  | cons a t ih =>
      intro y h
      cases t with
      | nil =>
          have : a = y := by simpa using h
          rw [this]; exact List.mem_cons_self _ _
      | cons b t2 =>
          have h2 : (b :: t2).getLast? = some y := by
            rwa [List.getLast?_cons_cons] at h
          exact List.mem_cons.mpr (Or.inr (ih h2))

theorem sorted_le_getLast : ∀ {l : List ℚ} {y : ℚ}, l.Sorted (· ≤ ·) →
    l.getLast? = some y → ∀ x ∈ l, x ≤ y := by
  intro l
  induction l with
  | nil => intro y _ _ x hx; cases hx
  | cons a t ih =>
      intro y hs h x hx
      cases t with
      | nil =>
          have hay : a = y := by simpa using h
          rcases List.mem_cons.mp hx with h2 | h2
          · rw [h2, hay]
          · cases h2
      | cons b t2 =>
          have h2 : (b :: t2).getLast? = some y := by
            rwa [List.getLast?_cons_cons] at h
          rcases List.mem_cons.mp hx with h3 | h3
          · rw [h3]
            exact le_trans ((List.pairwise_cons.mp hs).1 _
              (mem_of_getLastSome h2)) (le_refl y)
          · exact ih hs.of_cons h2 x h3

theorem yearKeys_getLast_eq_max {tbl : List Row} {y : ℚ}
    (h : (yearKeys tbl).getLast? = some y) : maxValidYear tbl = y := by
  unfold maxValidYear
  apply listMax_eq
  · exact mem_yearKeys.mp (mem_of_getLastSome h)
  · intro x hx
    exact sorted_le_getLast (sortAsc_sorted _) h x (mem_yearKeys.mpr hx)

/-! ## Claim C1: fixed price-range bucketing -/

/-- C1, counterexample: the claim asserts that a row with
`average_price = 10000` is labeled `"$10K - $50K"`.  On the code
(`pd.cut` with its default right-closed bins) the row with minimum price
8000 and maximum price 12000 has average 10000 and is labeled `'< $10K'`. -/
theorem c1_counterexample :
    precioPromedio rowC1 = 10000 ∧
    rangoDePrecios (precioPromedio rowC1) = some Rango.menos10K ∧
    Rango.menos10K ≠ Rango.de10Ka50K := by
  have h : precioPromedio rowC1 = 10000 := by
    unfold precioPromedio rowC1
    norm_num
  refine ⟨h, ?_, by decide⟩
  rw [h]
  unfold rangoDePrecios
  norm_num

/-- C1 (amended): for every row the `price_range_bucket` is assigned by
bucketing `average_price` over the boundaries `[0, 10000, 50000, 200000, ∞)`
with intervals half-open on the *left*, `(lo, hi]`: a value lying exactly on
a boundary belongs to the **lower** bucket (so `average_price = 10000` is
labeled `'< $10K'`), and every row with `average_price > 0` receives exactly
one bucket label. -/
theorem c1_amended_buckets (x : ℚ) (hx : 0 < x) :
    ∃ b, rangoDePrecios x = some b ∧
      (b = Rango.menos10K ↔ x ≤ 10000) ∧
      (b = Rango.de10Ka50K ↔ 10000 < x ∧ x ≤ 50000) ∧
      (b = Rango.de50Ka200K ↔ 50000 < x ∧ x ≤ 200000) ∧
      (b = Rango.mas200K ↔ 200000 < x) := by
  unfold rangoDePrecios
  rw [if_neg (not_le.mpr hx)]
  by_cases h1 : x ≤ 10000
  · rw [if_pos h1]
    refine ⟨.menos10K, rfl, by simp [h1], ?_, ?_, ?_⟩
    · exact ⟨fun h => absurd h (by decide), fun h => absurd h1 (not_le.mpr h.1)⟩
    · exact ⟨fun h => absurd h (by decide), fun h => absurd h1 (not_le.mpr (by linarith [h.1]))⟩
    · exact ⟨fun h => absurd h (by decide), fun h => absurd h1 (not_le.mpr (by linarith))⟩
  · rw [if_neg h1]
    by_cases h2 : x ≤ 50000
    · rw [if_pos h2]
      refine ⟨.de10Ka50K, rfl, ?_, by simp [not_le.mp h1, h2], ?_, ?_⟩
      · exact ⟨fun h => absurd h (by decide), fun h => absurd h h1⟩
      · exact ⟨fun h => absurd h (by decide), fun h => absurd h2 (not_le.mpr h.1)⟩
      · exact ⟨fun h => absurd h (by decide), fun h => absurd h2 (not_le.mpr (by linarith))⟩
    · rw [if_neg h2]
      by_cases h3 : x ≤ 200000
      · rw [if_pos h3]
        refine ⟨.de50Ka200K, rfl, ?_, ?_, by simp [not_le.mp h2, h3], ?_⟩
        · exact ⟨fun h => absurd h (by decide), fun h => absurd h h1⟩
        · exact ⟨fun h => absurd h (by decide), fun h => absurd h.2 h2⟩
        · exact ⟨fun h => absurd h (by decide), fun h => absurd h3 (not_le.mpr h)⟩
      · rw [if_neg h3]
        refine ⟨.mas200K, rfl, ?_, ?_, ?_, by simp [not_le.mp h3]⟩
        · exact ⟨fun h => absurd h (by decide), fun h => absurd h h1⟩
        · exact ⟨fun h => absurd h (by decide), fun h => absurd h.2 h2⟩
        · exact ⟨fun h => absurd h (by decide), fun h => absurd h.2 h3⟩

/-- C1, witness: the amended theorem applied at the boundary value 10000. -/
theorem c1_witness :
    (0 : ℚ) < 10000 ∧
    (∃ b, rangoDePrecios 10000 = some b ∧
      (b = Rango.menos10K ↔ (10000 : ℚ) ≤ 10000) ∧
      (b = Rango.de10Ka50K ↔ 10000 < (10000 : ℚ) ∧ (10000 : ℚ) ≤ 50000) ∧
      (b = Rango.de50Ka200K ↔ 50000 < (10000 : ℚ) ∧ (10000 : ℚ) ≤ 200000) ∧
      (b = Rango.mas200K ↔ 200000 < (10000 : ℚ))) :=
  ⟨by norm_num, c1_amended_buckets 10000 (by norm_num)⟩

/-! ## Claim C4: growth metrics with a single distinct year -/

/-- C4, counterexample: on a table whose rows all carry the single valid year
2018, the works growth metric evaluates to the numeric value `0.0`
(`iloc[-1]` and `iloc[0]` hit the same row), not to an error or NaN as the
claim asserts. -/
theorem c4_counterexample :
    crecimientoObras tblC4 = some 0 ∧ crecimientoObras tblC4 ≠ none := by
  have hkeys : yearKeys tblC4 = [2018] := by
    unfold yearKeys tblC4 mkRow
    norm_num [sortAsc, List.insertionSort]
  have hobras : obrasAt tblC4 2018 = 3 := by
    rw [obrasAt_eq_length]
    unfold rowsOfYear tblC4 mkRow
    norm_num
  constructor
  · unfold crecimientoObras crecimiento
    rw [hkeys]
    simp only [List.head?_cons, List.getLast?_singleton]
    rw [hobras]
    norm_num
  · unfold crecimientoObras crecimiento
    rw [hkeys]
    simp

/-- C4 (amended): when exactly one distinct valid year is present, none of
the growth metrics fails: `iloc[-1]` and `iloc[0]` address the same row of
`year_stats`, so the count-based growth metrics (works, artists, galleries)
all evaluate to the numeric value 0, and the price growth metric evaluates
to 0 as well whenever that year's (rounded) mean price is nonzero.  (No
`InsufficientDataError` exists anywhere in the code.) -/
theorem c4_amended_growth_zero (tbl : List Row)
    (h1 : (yearKeys tbl).length = 1)
    (hp : precioAt tbl (minValidYear tbl) ≠ 0) :
    crecimientoObras tbl = some 0 ∧ crecimientoArtistas tbl = some 0 ∧
    crecimientoGalerias tbl = some 0 ∧ crecimientoPrecio tbl = some 0 := by
  obtain ⟨y, hy⟩ : ∃ y, yearKeys tbl = [y] := List.length_eq_one.mp h1
  have hymem : y ∈ yearKeys tbl := by rw [hy]; exact List.mem_cons_self _ _
  have hymin : minValidYear tbl = y := yearKeys_head_eq_min hy
  have hgen : ∀ f : ℚ → ℚ, f y ≠ 0 → crecimiento tbl f = some 0 := by
    intro f hf
    unfold crecimiento
    rw [hy]
    simp only [List.head?_cons, List.getLast?_singleton]
    rw [div_self hf]
    norm_num
  refine ⟨hgen _ (obrasAt_ne_zero hymem), hgen _ (artistasAt_ne_zero hymem),
    hgen _ (galeriasAt_ne_zero hymem), hgen _ ?_⟩
  rwa [hymin] at hp

/-- C4, witness: the amended theorem applied to the single-year table. -/
theorem c4_witness :
    (yearKeys tblC4).length = 1 ∧ precioAt tblC4 (minValidYear tblC4) ≠ 0 ∧
    (crecimientoObras tblC4 = some 0 ∧ crecimientoArtistas tblC4 = some 0 ∧
     crecimientoGalerias tblC4 = some 0 ∧ crecimientoPrecio tblC4 = some 0) := by
  have hkeys : yearKeys tblC4 = [2018] := by
    unfold yearKeys tblC4 mkRow
    norm_num [sortAsc, List.insertionSort]
  have hmin : minValidYear tblC4 = 2018 := yearKeys_head_eq_min hkeys
  have hlen : (yearKeys tblC4).length = 1 := by rw [hkeys]; rfl
  have hprecio : precioAt tblC4 (minValidYear tblC4) ≠ 0 := by
    rw [hmin]
    unfold precioAt rowsOfYear tblC4 mkRow precioPromedio
    norm_num
    rw [round2_eq_self_int _ 20 (by norm_num)]
    norm_num
  exact ⟨hlen, hprecio, c4_amended_growth_zero tblC4 hlen hprecio⟩

/-! ## Claim C5: sale-status metrics -/

theorem lookup_map_self {β : Type} (keys : List String) (f : String → β) (v : String)
    (hv : v ∈ keys) : (keys.map fun k => (k, f k)).lookup v = some (f v) := by
  induction keys with
  | nil => cases hv
  | cons k t ih =>
      by_cases h : v = k
      · subst h
        simp [List.lookup]
      · have hvt : v ∈ t := by
          rcases List.mem_cons.mp hv with h2 | h2
          · exact absurd h2 h
          · exact h2
        have hbeq : (v == k) = false := beq_eq_false_iff_ne.mpr h
        simp only [List.map_cons, List.lookup, hbeq]
        exact ih hvt

/-- C5, counterexample: on a table whose status column is present but whose
vocabulary lacks the literal `"Vendida"`, the sold-value metric
`ventas_stats.loc['Vendida', 'Valor Total']` raises an uncaught `KeyError`
(modelled as `none`): the metric is not "gracefully omitted" and the report
does not proceed.  The sale rate, far from being omitted, evaluates to 0. -/
theorem c5_counterexample :
    valorTotalVendido tblC5X = none ∧ tasaVenta tblC5X = 0 := by
  constructor
  · rfl
  · have h0 : obrasVendidas tblC5X = 0 := by decide
    unfold tasaVenta
    rw [h0]
    norm_num

/-- C5 (amended): when the literal `"Vendida"` occurs in the status column,
the `.loc['Vendida']` lookup succeeds (no `KeyError`), the sold-value metric
is the rounded sum of the sold rows' average prices, the groupby count of the
`'Vendida'` group agrees with the directly computed `obras_vendidas`, and the
sale rate equals that count divided by the total row count, times 100.
When the literal is absent the code instead raises an uncaught `KeyError` at
the sold-value metric (see the counterexample), so the metrics are not
"gracefully omitted". -/
theorem c5_amended_ventas (tbl : List Row)
    (hv : "Vendida" ∈ tbl.map (·.estadoVenta)) :
    (ventasAgg tbl).lookup "Vendida" = some (ventasStatsFor tbl "Vendida") ∧
    valorTotalVendido tbl =
      some (round2 (((tbl.filter fun r =>
        decide (r.estadoVenta = "Vendida")).map precioPromedio).sum)) ∧
    (ventasStatsFor tbl "Vendida").numObras = ((obrasVendidas tbl : ℕ) : ℚ) ∧
    tasaVenta tbl =
      (ventasStatsFor tbl "Vendida").numObras / ((tbl.length : ℕ) : ℚ) * 100 := by
  have hd : "Vendida" ∈ (tbl.map (·.estadoVenta)).dedup := List.mem_dedup.mpr hv
  have hlk : (ventasAgg tbl).lookup "Vendida" = some (ventasStatsFor tbl "Vendida") := by
    unfold ventasAgg
    exact lookup_map_self _ _ _ hd
  have hcnt : (ventasStatsFor tbl "Vendida").numObras = ((obrasVendidas tbl : ℕ) : ℚ) := by
    unfold ventasStatsFor obrasVendidas
    exact round2_natCast _
  refine ⟨hlk, ?_, hcnt, ?_⟩
  · unfold valorTotalVendido
    rw [hlk]
    rfl
  · rw [hcnt]
    rfl

/-- C5, witness: the amended theorem applied to a table with two sold rows
out of three. -/
theorem c5_witness :
    "Vendida" ∈ tblC5W.map (·.estadoVenta) ∧
    ((ventasAgg tblC5W).lookup "Vendida" = some (ventasStatsFor tblC5W "Vendida") ∧
     valorTotalVendido tblC5W =
       some (round2 (((tblC5W.filter fun r =>
         decide (r.estadoVenta = "Vendida")).map precioPromedio).sum)) ∧
     (ventasStatsFor tblC5W "Vendida").numObras = ((obrasVendidas tblC5W : ℕ) : ℚ) ∧
     tasaVenta tblC5W =
       (ventasStatsFor tblC5W "Vendida").numObras / ((tblC5W.length : ℕ) : ℚ) * 100) :=
  ⟨by decide, c5_amended_ventas tblC5W (by decide)⟩

/-! ## Claim C9: the filter mask -/

/-- C9 (confirmed): the filter mask is the conjunction of the active
predicates, an empty selection for any categorical dimension imposes no
constraint, and the price predicate has inclusive bounds; hence with every
categorical selection empty and the range equal to the full observed
minimum/maximum of `average_price`, every row passes and the filtered
dataset is the entire table unchanged. -/
theorem c9_filter_identity (tbl : List Row) (segs : List Seg) (f : Filtros)
    (hlen : tbl.length ≤ segs.length)
    (hG : f.selGaleria = []) (hS : f.selSegmento = []) (hP : f.selPais = [])
    (hT : f.selTipoArtista = []) (hE : f.selEstadoVenta = [])
    (hlo : f.precioLo = listMin (tbl.map precioPromedio))
    (hhi : f.precioHi = listMax (tbl.map precioPromedio)) :
    dfFiltered tbl segs f = tbl := by
  unfold dfFiltered
  have hall : ∀ rs ∈ tbl.zip segs, maskRow f rs.1 rs.2 = true := by
    intro rs hrs
    have hr : rs.1 ∈ tbl := (List.of_mem_zip hrs).1
    have hmem : precioPromedio rs.1 ∈ tbl.map precioPromedio :=
      List.mem_map_of_mem _ hr
    unfold maskRow
    rw [hG, hS, hP, hT, hE, hlo, hhi]
    simp only [List.isEmpty_nil, Bool.true_or, Bool.and_true, Bool.true_and,
      Bool.and_eq_true, decide_eq_true_eq]
    exact ⟨listMin_le hmem, le_listMax hmem⟩
  rw [List.filter_eq_self.mpr hall]
  exact List.map_fst_zip tbl segs hlen

/-- C9, witness: the filter-identity theorem applied to a concrete two-row
table with its concrete all-empty filter. -/
theorem c9_witness :
    tblC9W.length ≤ segsC9W.length ∧
    filtrosC9W.selGaleria = [] ∧ filtrosC9W.selSegmento = [] ∧
    filtrosC9W.selPais = [] ∧ filtrosC9W.selTipoArtista = [] ∧
    filtrosC9W.selEstadoVenta = [] ∧
    filtrosC9W.precioLo = listMin (tblC9W.map precioPromedio) ∧
    filtrosC9W.precioHi = listMax (tblC9W.map precioPromedio) ∧
    dfFiltered tblC9W segsC9W filtrosC9W = tblC9W := by
  have hlo : filtrosC9W.precioLo = listMin (tblC9W.map precioPromedio) := by
    unfold filtrosC9W tblC9W mkRow precioPromedio listMin
    norm_num
  have hhi : filtrosC9W.precioHi = listMax (tblC9W.map precioPromedio) := by
    unfold filtrosC9W tblC9W mkRow precioPromedio listMax
    norm_num
  exact ⟨by decide, rfl, rfl, rfl, rfl, rfl, hlo, hhi,
    c9_filter_identity tblC9W segsC9W filtrosC9W (by decide) rfl rfl rfl rfl rfl hlo hhi⟩

/-! ## Claim C3: growth metrics over the year dimension -/

theorem crecimiento_eq_min_max (tbl : List Row) (h2 : 2 ≤ (yearKeys tbl).length)
    (f : ℚ → ℚ) :
    crecimiento tbl f = some ((f (maxValidYear tbl) / f (minValidYear tbl) - 1) * 100) := by
  have hne : yearKeys tbl ≠ [] := by
    intro h
    rw [h] at h2
    simp at h2
  obtain ⟨y0, t, hy⟩ := List.exists_cons_of_ne_nil hne
  have hhead : (yearKeys tbl).head? = some y0 := by rw [hy]; rfl
  have hlast : (yearKeys tbl).getLast? = some ((yearKeys tbl).getLast hne) :=
    List.getLast?_eq_getLast _ hne
  have hminy : minValidYear tbl = y0 := yearKeys_head_eq_min hy
  have hmaxy : maxValidYear tbl = (yearKeys tbl).getLast hne :=
    yearKeys_getLast_eq_max hlast
  unfold crecimiento
  rw [hhead, hlast, hminy, hmaxy]

/-- C3 (confirmed): with at least two distinct valid years, every
year-dimension growth metric equals
`(value at the maximum valid year / value at the minimum valid year - 1) × 100`
— "first"/"last" meaning the minimum/maximum valid year present, not input
row order.  (The values are the `year_stats` column entries: exact counts for
works/artists/galleries, the rounded mean for the price column.) -/
theorem c3_growth_metrics (tbl : List Row) (h2 : 2 ≤ (yearKeys tbl).length) :
    crecimientoObras tbl =
      some ((obrasAt tbl (maxValidYear tbl) / obrasAt tbl (minValidYear tbl) - 1) * 100) ∧
    crecimientoPrecio tbl =
      some ((precioAt tbl (maxValidYear tbl) / precioAt tbl (minValidYear tbl) - 1) * 100) ∧
    crecimientoArtistas tbl =
      some ((artistasAt tbl (maxValidYear tbl) / artistasAt tbl (minValidYear tbl) - 1) * 100) ∧
    crecimientoGalerias tbl =
      some ((galeriasAt tbl (maxValidYear tbl) / galeriasAt tbl (minValidYear tbl) - 1) * 100) :=
  ⟨crecimiento_eq_min_max tbl h2 _, crecimiento_eq_min_max tbl h2 _,
   crecimiento_eq_min_max tbl h2 _, crecimiento_eq_min_max tbl h2 _⟩

/-- C3, witness: the growth theorem applied to a table with 2 works in 2018
and 3 works in 2019; the works growth metric is `(3/2 - 1) × 100 = 50.0`,
the spec's example ratio (150 works against 100). -/
theorem c3_witness :
    2 ≤ (yearKeys tblC3W).length ∧
    crecimientoObras tblC3W =
      some ((obrasAt tblC3W (maxValidYear tblC3W) /
        obrasAt tblC3W (minValidYear tblC3W) - 1) * 100) ∧
    crecimientoObras tblC3W = some 50 := by
  have hkeys : yearKeys tblC3W = [2018, 2019] := by
    unfold yearKeys tblC3W mkRow
    norm_num [sortAsc, List.insertionSort, List.orderedInsert]
  have h2 : 2 ≤ (yearKeys tblC3W).length := by rw [hkeys]; norm_num
  refine ⟨h2, (c3_growth_metrics tblC3W h2).1, ?_⟩
  have hb : obrasAt tblC3W 2018 = 2 := by
    rw [obrasAt_eq_length]
    have : (rowsOfYear tblC3W 2018).length = 2 := by decide
    rw [this]
    norm_num
  have hc : obrasAt tblC3W 2019 = 3 := by
    rw [obrasAt_eq_length]
    have : (rowsOfYear tblC3W 2019).length = 3 := by decide
    rw [this]
    norm_num
  unfold crecimientoObras crecimiento
  rw [hkeys]
  simp only [List.head?_cons, List.getLast?_cons_cons, List.getLast?_singleton]
  rw [hb, hc]
  norm_num

/-! ## Claim C6: rounding of per-group ratios -/

/-- The per-gallery ratio is computed from the exact group count and exact
distinct-artist count: the prior `.round(2)` of the aggregated frame does not
alter them (they are integers), so only the final rounding of the ratio
itself remains. -/
theorem obrasPorArtista_from_exact_counts (tbl : List Row) (g : String) :
    (galleryStatsFor tbl g).obrasPorArtista =
      round2 ((((tbl.filter fun r => decide (r.galeria = g)).length : ℕ) : ℚ) /
        ((((tbl.filter fun r =>
          decide (r.galeria = g)).map (·.artista)).dedup.length : ℕ) : ℚ)) := by
  show round2 (round2 _ / round2 _) = _
  rw [round2_natCast, round2_natCast]

/-- C6 (amended): per-group derived ratios are indeed computed from exact
(unrounded) group metrics — rounding the integral count columns is the
identity — and each ratio is then rounded to two decimals; but the summary
mean `Promedio Obras/Artista` is computed over the *rounded* per-gallery
ratios, so display rounding does feed back into that summary computation
(see the counterexample). -/
theorem c6_amended_rounding (tbl : List Row) (g : String) :
    (galleryStatsFor tbl g).obrasPorArtista =
      round2 ((((tbl.filter fun r => decide (r.galeria = g)).length : ℕ) : ℚ) /
        ((((tbl.filter fun r =>
          decide (r.galeria = g)).map (·.artista)).dedup.length : ℕ) : ℚ)) :=
  obrasPorArtista_from_exact_counts tbl g

/-- C6, counterexample: on the concrete table with gallery ratios 4/3 and 1,
the summary mean the code computes is `(1.33 + 1)/2 = 1.165`, while the mean
over unrounded ratios (what the claim asserts) is `(4/3 + 1)/2 = 7/6`; the
two differ, so rounding feeds back into the summary mean. -/
theorem c6_counterexample :
    promedioObrasArtista tblC6 = 233 / 200 ∧
    promedioObrasArtistaUnrounded tblC6 = 7 / 6 ∧
    promedioObrasArtista tblC6 ≠ promedioObrasArtistaUnrounded tblC6 := by
  have hlen1 : (tblC6.filter fun r => decide (r.galeria = "G1")).length = 4 := by decide
  have hart1 : ((tblC6.filter fun r =>
      decide (r.galeria = "G1")).map (·.artista)).dedup.length = 3 := by decide
  have hlen2 : (tblC6.filter fun r => decide (r.galeria = "G2")).length = 1 := by decide
  have hart2 : ((tblC6.filter fun r =>
      decide (r.galeria = "G2")).map (·.artista)).dedup.length = 1 := by decide
  have hkeys : (tblC6.map (·.galeria)).dedup = ["G1", "G2"] := by decide
  have hG1 : (galleryStatsFor tblC6 "G1").obrasPorArtista = 133 / 100 := by
    rw [obrasPorArtista_from_exact_counts, hlen1, hart1]
    unfold round2 roundHalfEven
    rw [show (((4 : ℕ) : ℚ) / ((3 : ℕ) : ℚ) * 100) = 400 / 3 by push_cast; ring]
    rw [show ⌊(400 / 3 : ℚ)⌋ = 133 from Int.floor_eq_iff.mpr (by norm_num)]
    norm_num
  have hG2 : (galleryStatsFor tblC6 "G2").obrasPorArtista = 1 := by
    rw [obrasPorArtista_from_exact_counts, hlen2, hart2]
    rw [show (((1 : ℕ) : ℚ) / ((1 : ℕ) : ℚ)) = ((1 : ℕ) : ℚ) by norm_num]
    rw [round2_natCast]
    norm_num
  have hmean : promedioObrasArtista tblC6 = 233 / 200 := by
    unfold promedioObrasArtista galleryAgg
    rw [hkeys]
    simp only [List.map_cons, List.map_nil]
    rw [hG1, hG2]
    norm_num
  have hmeanU : promedioObrasArtistaUnrounded tblC6 = 7 / 6 := by
    unfold promedioObrasArtistaUnrounded
    rw [hkeys]
    simp only [List.map_cons, List.map_nil]
    rw [hlen1, hart1, hlen2, hart2]
    norm_num
  refine ⟨hmean, hmeanU, ?_⟩
  rw [hmean, hmeanU]
  norm_num

/-! ## Quartile machinery: qcut on distinct values -/

theorem sortAsc_strict {l : List ℚ} (h : l.Pairwise (· ≠ ·)) :
    (sortAsc l).Pairwise (· < ·) := by
  have h1 := sortAsc_sorted l
  have h2 : (sortAsc l).Pairwise (· ≠ ·) :=
    ((sortAsc_perm l).pairwise_iff fun hab => Ne.symm hab).mpr h
  exact (h1.and h2).imp fun hab => lt_of_le_of_ne hab.1 hab.2

theorem segLabel_eq_basico_iff {q1 q2 q3 x : ℚ} :
    segLabel q1 q2 q3 x = Seg.basico ↔ x ≤ q1 := by
  unfold segLabel
  split_ifs with h1 h2 h3 <;> simp_all

theorem segLabel_eq_medio_iff {q1 q2 q3 x : ℚ} :
    segLabel q1 q2 q3 x = Seg.medio ↔ ¬x ≤ q1 ∧ x ≤ q2 := by
  unfold segLabel
  split_ifs with h1 h2 h3 <;> simp_all

theorem segLabel_eq_premium_iff {q1 q2 q3 x : ℚ} :
    segLabel q1 q2 q3 x = Seg.premium ↔ ¬x ≤ q1 ∧ ¬x ≤ q2 ∧ x ≤ q3 := by
  unfold segLabel
  split_ifs with h1 h2 h3 <;> simp_all

theorem segLabel_eq_ultra_iff {q1 q2 q3 x : ℚ} :
    segLabel q1 q2 q3 x = Seg.ultraPremium ↔ ¬x ≤ q1 ∧ ¬x ≤ q2 ∧ ¬x ≤ q3 := by
  unfold segLabel
  split_ifs with h1 h2 h3 <;> simp_all

/-- The purely arithmetic core of the quartile size bound: if the cumulative
counts below the three interior cut points are `⌊k(n-1)/4⌋ + 1`, the four
group sizes differ pairwise by at most `n % 4`. -/
theorem quartile_size_bound (n cB cM cP cU : ℕ) (h2 : 2 ≤ n)
    (e1 : cB = 1 * (n - 1) / 4 + 1)
    (e2 : cB + cM = 2 * (n - 1) / 4 + 1)
    (e3 : cB + cM + cP = 3 * (n - 1) / 4 + 1)
    (e4 : cB + cM + cP + cU = n) :
    ∀ x y : ℕ, (x = cB ∨ x = cM ∨ x = cP ∨ x = cU) →
      (y = cB ∨ y = cM ∨ y = cP ∨ y = cU) → x ≤ y + n % 4 := by
  obtain ⟨q, r, hq, hr⟩ : ∃ q r, n - 1 = 4 * q + r ∧ r < 4 :=
    ⟨(n - 1) / 4, (n - 1) % 4, (Nat.div_add_mod _ 4).symm, Nat.mod_lt _ (by norm_num)⟩
  rw [hq] at e1 e2 e3
  have d1 : 1 * (4 * q + r) / 4 = q + r / 4 := by
    rw [one_mul, Nat.mul_add_div (by norm_num)]
  have d2 : 2 * (4 * q + r) / 4 = 2 * q + 2 * r / 4 := by
    rw [Nat.mul_add, ← Nat.mul_assoc, show 2 * 4 = 4 * 2 from rfl,
      Nat.mul_assoc, Nat.mul_add_div (by norm_num)]
  have d3 : 3 * (4 * q + r) / 4 = 3 * q + 3 * r / 4 := by
    rw [Nat.mul_add, ← Nat.mul_assoc, show 3 * 4 = 4 * 3 from rfl,
      Nat.mul_assoc, Nat.mul_add_div (by norm_num)]
  rw [d1] at e1
  rw [d2] at e2
  rw [d3] at e3
  intro x y hx hy
  rcases hx with rfl | rfl | rfl | rfl <;> rcases hy with rfl | rfl | rfl | rfl <;>
    interval_cases r <;> omega

/-- On a column of pairwise distinct values (with at least two rows), `qcut4`
succeeds, labels every row, and the four group sizes differ pairwise by at
most `n % 4`. -/
theorem qcut4_distinct_spec (vals : List ℚ) (hdist : vals.Pairwise (· ≠ ·))
    (hn : 2 ≤ vals.length) :
    ∃ segs : List Seg, qcut4 vals = some segs ∧ segs.length = vals.length ∧
      ∀ a b : Seg, (segs.countP fun x => decide (x = a)) ≤
        (segs.countP fun x => decide (x = b)) + vals.length % 4 := by
  have hslen : (sortAsc vals).length = vals.length := sortAsc_length vals
  have hs' : (sortAsc vals).Pairwise (· < ·) := sortAsc_strict hdist
  have hsle : (sortAsc vals).Sorted (· ≤ ·) := sortAsc_sorted vals
  have hN2 : 2 ≤ (sortAsc vals).length := by rw [hslen]; exact hn
  -- the five bin edges are strictly increasing
  have h01 : quantileOfSorted (sortAsc vals) 0 4 < quantileOfSorted (sortAsc vals) 1 4 := by
    unfold quantileOfSorted
    exact interp_mono_strict hs' (by norm_num) (by omega) (by omega) (by omega)
  have h12 : quantileOfSorted (sortAsc vals) 1 4 < quantileOfSorted (sortAsc vals) 2 4 := by
    unfold quantileOfSorted
    exact interp_mono_strict hs' (by norm_num) (by omega) (by omega) (by omega)
  have h23 : quantileOfSorted (sortAsc vals) 2 4 < quantileOfSorted (sortAsc vals) 3 4 := by
    unfold quantileOfSorted
    exact interp_mono_strict hs' (by norm_num) (by omega) (by omega) (by omega)
  have h34 : quantileOfSorted (sortAsc vals) 3 4 < quantileOfSorted (sortAsc vals) 4 4 := by
    unfold quantileOfSorted
    exact interp_mono_strict hs' (by norm_num) (by omega) (by omega) (by omega)
  have hnodup : [quantileOfSorted (sortAsc vals) 0 4, quantileOfSorted (sortAsc vals) 1 4,
      quantileOfSorted (sortAsc vals) 2 4, quantileOfSorted (sortAsc vals) 3 4,
      quantileOfSorted (sortAsc vals) 4 4].Nodup := by
    have hpw : [quantileOfSorted (sortAsc vals) 0 4, quantileOfSorted (sortAsc vals) 1 4,
        quantileOfSorted (sortAsc vals) 2 4, quantileOfSorted (sortAsc vals) 3 4,
        quantileOfSorted (sortAsc vals) 4 4].Pairwise (· < ·) := by
      rw [← List.chain'_iff_pairwise]
      simp only [List.chain'_cons, List.chain'_singleton, and_true]
      exact ⟨h01, h12, h23, h34⟩
    exact hpw.imp ne_of_lt
  have hqc : qcut4 vals = some (vals.map (segLabel (quantileOfSorted (sortAsc vals) 1 4)
      (quantileOfSorted (sortAsc vals) 2 4) (quantileOfSorted (sortAsc vals) 3 4))) := by
    unfold qcut4
    simp only []
    rw [if_pos hnodup]
  -- cumulative counts below each interior edge, over the sorted list
  have hc1 : ((sortAsc vals).countP fun x =>
      decide (x ≤ quantileOfSorted (sortAsc vals) 1 4)) =
      1 * ((sortAsc vals).length - 1) / 4 + 1 := by
    refine countP_le_of_sorted hs' _ (1 * ((sortAsc vals).length - 1) / 4)
      (by omega) ?_ ?_
    · show (sortAsc vals).getD (1 * ((sortAsc vals).length - 1) / 4) 0 ≤
        quantileOfSorted (sortAsc vals) 1 4
      unfold quantileOfSorted
      exact interp_ge hsle _ 4 (by omega)
    · intro hj1
      show quantileOfSorted (sortAsc vals) 1 4 <
        (sortAsc vals).getD (1 * ((sortAsc vals).length - 1) / 4 + 1) 0
      unfold quantileOfSorted
      exact interp_lt hs' _ 4 (by norm_num) hj1
  have hc2 : ((sortAsc vals).countP fun x =>
      decide (x ≤ quantileOfSorted (sortAsc vals) 2 4)) =
      2 * ((sortAsc vals).length - 1) / 4 + 1 := by
    refine countP_le_of_sorted hs' _ (2 * ((sortAsc vals).length - 1) / 4)
      (by omega) ?_ ?_
    · show (sortAsc vals).getD (2 * ((sortAsc vals).length - 1) / 4) 0 ≤
        quantileOfSorted (sortAsc vals) 2 4
      unfold quantileOfSorted
      exact interp_ge hsle _ 4 (by omega)
    · intro hj1
      show quantileOfSorted (sortAsc vals) 2 4 <
        (sortAsc vals).getD (2 * ((sortAsc vals).length - 1) / 4 + 1) 0
      unfold quantileOfSorted
      exact interp_lt hs' _ 4 (by norm_num) hj1
  have hc3 : ((sortAsc vals).countP fun x =>
      decide (x ≤ quantileOfSorted (sortAsc vals) 3 4)) =
      3 * ((sortAsc vals).length - 1) / 4 + 1 := by
    refine countP_le_of_sorted hs' _ (3 * ((sortAsc vals).length - 1) / 4)
      (by omega) ?_ ?_
    · show (sortAsc vals).getD (3 * ((sortAsc vals).length - 1) / 4) 0 ≤
        quantileOfSorted (sortAsc vals) 3 4
      unfold quantileOfSorted
      exact interp_ge hsle _ 4 (by omega)
    · intro hj1
      show quantileOfSorted (sortAsc vals) 3 4 <
        (sortAsc vals).getD (3 * ((sortAsc vals).length - 1) / 4 + 1) 0
      unfold quantileOfSorted
      exact interp_lt hs' _ 4 (by norm_num) hj1
  -- transfer to the unsorted column
  have hp1 : (vals.countP fun x =>
      decide (x ≤ quantileOfSorted (sortAsc vals) 1 4)) =
      1 * ((sortAsc vals).length - 1) / 4 + 1 := by
    rw [← (sortAsc_perm vals).countP_eq]
    exact hc1
  have hp2 : (vals.countP fun x =>
      decide (x ≤ quantileOfSorted (sortAsc vals) 2 4)) =
      2 * ((sortAsc vals).length - 1) / 4 + 1 := by
    rw [← (sortAsc_perm vals).countP_eq]
    exact hc2
  have hp3 : (vals.countP fun x =>
      decide (x ≤ quantileOfSorted (sortAsc vals) 3 4)) =
      3 * ((sortAsc vals).length - 1) / 4 + 1 := by
    rw [← (sortAsc_perm vals).countP_eq]
    exact hc3
  have h12le : quantileOfSorted (sortAsc vals) 1 4 ≤ quantileOfSorted (sortAsc vals) 2 4 :=
    le_of_lt h12
  have h23le : quantileOfSorted (sortAsc vals) 2 4 ≤ quantileOfSorted (sortAsc vals) 3 4 :=
    le_of_lt h23
  refine ⟨vals.map (segLabel (quantileOfSorted (sortAsc vals) 1 4)
    (quantileOfSorted (sortAsc vals) 2 4) (quantileOfSorted (sortAsc vals) 3 4)),
    hqc, by rw [List.length_map], ?_⟩
  -- per-label counts as countP over the raw values
  have hB : ((vals.map (segLabel (quantileOfSorted (sortAsc vals) 1 4)
      (quantileOfSorted (sortAsc vals) 2 4) (quantileOfSorted (sortAsc vals) 3 4))).countP
        fun x => decide (x = Seg.basico)) =
      vals.countP fun x => decide (x ≤ quantileOfSorted (sortAsc vals) 1 4) := by
    rw [List.countP_map]
    apply List.countP_congr
    intro x _
    simp [Function.comp, segLabel_eq_basico_iff]
  have hM : ((vals.map (segLabel (quantileOfSorted (sortAsc vals) 1 4)
      (quantileOfSorted (sortAsc vals) 2 4) (quantileOfSorted (sortAsc vals) 3 4))).countP
        fun x => decide (x = Seg.medio)) =
      vals.countP fun x => !decide (x ≤ quantileOfSorted (sortAsc vals) 1 4) &&
        decide (x ≤ quantileOfSorted (sortAsc vals) 2 4) := by
    rw [List.countP_map]
    apply List.countP_congr
    intro x _
    simp [Function.comp, segLabel_eq_medio_iff]
  have hP : ((vals.map (segLabel (quantileOfSorted (sortAsc vals) 1 4)
      (quantileOfSorted (sortAsc vals) 2 4) (quantileOfSorted (sortAsc vals) 3 4))).countP
        fun x => decide (x = Seg.premium)) =
      vals.countP fun x => !decide (x ≤ quantileOfSorted (sortAsc vals) 2 4) &&
        decide (x ≤ quantileOfSorted (sortAsc vals) 3 4) := by
    rw [List.countP_map]
    apply List.countP_congr
    intro x _
    simp only [Function.comp_apply, decide_eq_true_eq, Bool.and_eq_true,
      Bool.not_eq_true', decide_eq_false_iff_not, segLabel_eq_premium_iff]
    constructor
    · intro h
      exact ⟨h.2.1, h.2.2⟩
    · intro h
      exact ⟨fun hx1 => h.1 (le_trans hx1 h12le), h.1, h.2⟩
  have hU : ((vals.map (segLabel (quantileOfSorted (sortAsc vals) 1 4)
      (quantileOfSorted (sortAsc vals) 2 4) (quantileOfSorted (sortAsc vals) 3 4))).countP
        fun x => decide (x = Seg.ultraPremium)) =
      vals.countP fun x => !decide (x ≤ quantileOfSorted (sortAsc vals) 3 4) := by
    rw [List.countP_map]
    apply List.countP_congr
    intro x _
    simp only [Function.comp_apply, decide_eq_true_eq, Bool.not_eq_true',
      decide_eq_false_iff_not, segLabel_eq_ultra_iff]
    constructor
    · intro h
      exact h.2.2
    · intro h
      exact ⟨fun hx1 => h (le_trans hx1 (le_trans h12le h23le)),
        fun hx2 => h (le_trans hx2 h23le), h⟩
  -- split the cumulative counts
  have hsplit2 : (vals.countP fun x =>
      decide (x ≤ quantileOfSorted (sortAsc vals) 2 4)) =
      (vals.countP fun x => decide (x ≤ quantileOfSorted (sortAsc vals) 1 4)) +
      (vals.countP fun x => !decide (x ≤ quantileOfSorted (sortAsc vals) 1 4) &&
        decide (x ≤ quantileOfSorted (sortAsc vals) 2 4)) := by
    rw [countP_and_split vals
      (fun x => decide (x ≤ quantileOfSorted (sortAsc vals) 2 4))
      (fun x => decide (x ≤ quantileOfSorted (sortAsc vals) 1 4))]
    congr 1
    · apply List.countP_congr
      intro x _
      simp only [Bool.and_eq_true, decide_eq_true_eq]
      exact ⟨fun h => h.2, fun h => ⟨le_trans h h12le, h⟩⟩
    · apply List.countP_congr
      intro x _
      simp only [Bool.and_eq_true, Bool.not_eq_true', decide_eq_false_iff_not,
        decide_eq_true_eq]
      exact ⟨fun h => ⟨h.2, h.1⟩, fun h => ⟨h.2, h.1⟩⟩
  have hsplit3 : (vals.countP fun x =>
      decide (x ≤ quantileOfSorted (sortAsc vals) 3 4)) =
      (vals.countP fun x => decide (x ≤ quantileOfSorted (sortAsc vals) 2 4)) +
      (vals.countP fun x => !decide (x ≤ quantileOfSorted (sortAsc vals) 2 4) &&
        decide (x ≤ quantileOfSorted (sortAsc vals) 3 4)) := by
    rw [countP_and_split vals
      (fun x => decide (x ≤ quantileOfSorted (sortAsc vals) 3 4))
      (fun x => decide (x ≤ quantileOfSorted (sortAsc vals) 2 4))]
    congr 1
    · apply List.countP_congr
      intro x _
      simp only [Bool.and_eq_true, decide_eq_true_eq]
      exact ⟨fun h => h.2, fun h => ⟨le_trans h h23le, h⟩⟩
    · apply List.countP_congr
      intro x _
      simp only [Bool.and_eq_true, Bool.not_eq_true', decide_eq_false_iff_not,
        decide_eq_true_eq]
      exact ⟨fun h => ⟨h.2, h.1⟩, fun h => ⟨h.2, h.1⟩⟩
  have htot : (vals.countP fun x =>
      decide (x ≤ quantileOfSorted (sortAsc vals) 3 4)) +
      (vals.countP fun x => !decide (x ≤ quantileOfSorted (sortAsc vals) 3 4)) =
      vals.length :=
    countP_add_countP_not vals _
  rw [hslen] at hp1 hp2 hp3
  have hbound := quartile_size_bound vals.length
    ((vals.map (segLabel (quantileOfSorted (sortAsc vals) 1 4)
      (quantileOfSorted (sortAsc vals) 2 4)
      (quantileOfSorted (sortAsc vals) 3 4))).countP fun x => decide (x = Seg.basico))
    ((vals.map (segLabel (quantileOfSorted (sortAsc vals) 1 4)
      (quantileOfSorted (sortAsc vals) 2 4)
      (quantileOfSorted (sortAsc vals) 3 4))).countP fun x => decide (x = Seg.medio))
    ((vals.map (segLabel (quantileOfSorted (sortAsc vals) 1 4)
      (quantileOfSorted (sortAsc vals) 2 4)
      (quantileOfSorted (sortAsc vals) 3 4))).countP fun x => decide (x = Seg.premium))
    ((vals.map (segLabel (quantileOfSorted (sortAsc vals) 1 4)
      (quantileOfSorted (sortAsc vals) 2 4)
      (quantileOfSorted (sortAsc vals) 3 4))).countP fun x => decide (x = Seg.ultraPremium))
    hn
    (by rw [hB]; exact hp1)
    (by rw [hB, hM]; exact hsplit2.symm.trans hp2)
    (by rw [hB, hM, hP]; omega)
    (by rw [hB, hM, hP, hU]; omega)
  intro a b
  refine hbound _ _ ?_ ?_
  · cases a
    · exact Or.inl rfl
    · exact Or.inr (Or.inl rfl)
    · exact Or.inr (Or.inr (Or.inl rfl))
    · exact Or.inr (Or.inr (Or.inr rfl))
  · cases b
    · exact Or.inl rfl
    · exact Or.inr (Or.inl rfl)
    · exact Or.inr (Or.inr (Or.inl rfl))
    · exact Or.inr (Or.inr (Or.inr rfl))

/-! ## Claim C2: quartile segmentation -/

/-- C2, counterexample: on the table with average prices `[1, 2, 2, 3]` the
qcut derivation succeeds (bin edges 1, 7/4, 2, 9/4, 3 are unique) and both
tied rows receive the same label `Medio` — they are not split by rank order —
giving group sizes (1, 2, 0, 1).  With `row_count mod 4 = 0` the claim
demands equal sizes, but the `Medio` group exceeds the `Premium` group
by 2. -/
theorem c2_counterexample :
    qcut4 (tblC2X.map precioPromedio) =
      some [Seg.basico, Seg.medio, Seg.medio, Seg.ultraPremium] ∧
    ¬ ∀ a b : Seg,
      (([Seg.basico, Seg.medio, Seg.medio, Seg.ultraPremium].countP
        fun x => decide (x = a)) ≤
       ([Seg.basico, Seg.medio, Seg.medio, Seg.ultraPremium].countP
        fun x => decide (x = b)) + tblC2X.length % 4) := by
  constructor
  · have havgs : tblC2X.map precioPromedio = [1, 2, 2, 3] := by
      unfold tblC2X mkRow precioPromedio
      norm_num
    have hsort : sortAsc ([1, 2, 2, 3] : List ℚ) = [1, 2, 2, 3] := by
      unfold sortAsc
      norm_num [List.insertionSort, List.orderedInsert]
    have hq0 : quantileOfSorted ([1, 2, 2, 3] : List ℚ) 0 4 = 1 := by
      unfold quantileOfSorted interp
      norm_num
    have hq1 : quantileOfSorted ([1, 2, 2, 3] : List ℚ) 1 4 = 7 / 4 := by
      unfold quantileOfSorted interp
      norm_num
    have hq2 : quantileOfSorted ([1, 2, 2, 3] : List ℚ) 2 4 = 2 := by
      unfold quantileOfSorted interp
      norm_num
    have hq3 : quantileOfSorted ([1, 2, 2, 3] : List ℚ) 3 4 = 9 / 4 := by
      unfold quantileOfSorted interp
      norm_num
    have hq4 : quantileOfSorted ([1, 2, 2, 3] : List ℚ) 4 4 = 3 := by
      unfold quantileOfSorted interp
      norm_num
    rw [havgs]
    unfold qcut4
    simp only [hsort, hq0, hq1, hq2, hq3, hq4]
    rw [if_pos (by norm_num)]
    unfold segLabel
    norm_num
  · intro h
    have := h Seg.medio Seg.premium
    revert this
    decide

/-- C2 (amended): on a table whose average prices are pairwise distinct (and
with at least two rows), the quartile derivation succeeds and assigns exactly
one of the four labels to each row, producing four groups whose sizes differ
pairwise by at most `row_count mod 4`.  (With ties the derivation either
fails — duplicate bin edges — or bins all tied rows together by value, never
splitting them by rank order; see the counterexample.) -/
theorem c2_amended_quartiles (tbl : List Row)
    (hdist : (tbl.map precioPromedio).Pairwise (· ≠ ·)) (hn : 2 ≤ tbl.length) :
    ∃ segs : List Seg, qcut4 (tbl.map precioPromedio) = some segs ∧
      segs.length = tbl.length ∧
      ∀ a b : Seg, (segs.countP fun x => decide (x = a)) ≤
        (segs.countP fun x => decide (x = b)) + tbl.length % 4 := by
  have h := qcut4_distinct_spec (tbl.map precioPromedio) hdist
    (by rw [List.length_map]; exact hn)
  rwa [List.length_map] at h

/-- C2, witness: the amended theorem applied to the five-row table with
pairwise distinct average prices 10, 20, 30, 40, 50. -/
theorem c2_witness :
    (tblC2W.map precioPromedio).Pairwise (· ≠ ·) ∧ 2 ≤ tblC2W.length ∧
    (∃ segs : List Seg, qcut4 (tblC2W.map precioPromedio) = some segs ∧
      segs.length = tblC2W.length ∧
      ∀ a b : Seg, (segs.countP fun x => decide (x = a)) ≤
        (segs.countP fun x => decide (x = b)) + tblC2W.length % 4) := by
  have havgs : tblC2W.map precioPromedio = [10, 20, 30, 40, 50] := by
    unfold tblC2W mkRow precioPromedio
    norm_num
  have hdist : (tblC2W.map precioPromedio).Pairwise (· ≠ ·) := by
    rw [havgs]
    exact (by decide : ([10, 20, 30, 40, 50] : List ℚ).Nodup)
  have hn : 2 ≤ tblC2W.length := by decide
  exact ⟨hdist, hn, c2_amended_quartiles tblC2W hdist hn⟩

/-! ## Claim C10: qcut is not total -/

/-- All five quantile bin edges of a constant column coincide, so `pd.qcut`
raises `ValueError: Bin edges must be unique`. -/
theorem qcut4_replicate_none (c : ℚ) (n : ℕ) (hn : 1 ≤ n) :
    qcut4 (List.replicate n c) = none := by
  have hsorted : sortAsc (List.replicate n c) = List.replicate n c :=
    List.eq_of_perm_of_sorted (sortAsc_perm _)
      (sortAsc_sorted _) (List.pairwise_replicate.mpr (Or.inr le_rfl))
  have hget : ∀ (i : ℕ) (d : ℚ), i < n → (List.replicate n c).getD i d = c := by
    intro i d hi
    rw [List.getD_eq_getElem _ _ (by simpa using hi)]
    exact List.getElem_replicate _ _
  have hinterp : ∀ m : ℕ, m / 4 < n → interp (List.replicate n c) m 4 = c := by
    intro m hm
    unfold interp
    rw [hget _ _ hm]
    by_cases h1 : m / 4 + 1 < n
    · rw [hget _ _ h1]
      ring
    · rw [List.getD_eq_default _ _ (by simpa using not_lt.mp h1)]
      ring
  have hquant : ∀ k : ℕ, k ≤ 4 →
      quantileOfSorted (List.replicate n c) k 4 = c := by
    intro k hk
    unfold quantileOfSorted
    rw [List.length_replicate]
    apply hinterp
    have h1 : k * (n - 1) ≤ 4 * (n - 1) := Nat.mul_le_mul_right _ hk
    omega
  unfold qcut4
  simp only [hsorted, hquant 0 (by norm_num), hquant 1 (by norm_num),
    hquant 2 (by norm_num), hquant 3 (by norm_num), hquant 4 (by norm_num)]
  rw [if_neg]
  simp

/-- C10, counterexample: in the table with average prices `[1, 2, 2, 3]`,
more than a quarter of the rows (2 of 4) share the same average price, yet
the `price_segment` derivation does **not** raise — the quantile bin edges
(1, 7/4, 2, 9/4, 3) are unique and `qcut` succeeds.  So ">1/4 duplicated
values" does not characterize the failing tables. -/
theorem c10_counterexample :
    tblC10X.length < (tblC10X.countP fun r => decide (precioPromedio r = 2)) * 4 ∧
    (qcut4 (tblC10X.map precioPromedio)).isSome = true := by
  constructor
  · have hcnt : (tblC10X.countP fun r => decide (precioPromedio r = 2)) = 2 := by
      unfold tblC10X mkRow precioPromedio
      norm_num [List.countP_cons]
    rw [hcnt]
    decide
  · have havgs : tblC10X.map precioPromedio = [1, 2, 2, 3] := by
      unfold tblC10X mkRow precioPromedio
      norm_num
    have hsort : sortAsc ([1, 2, 2, 3] : List ℚ) = [1, 2, 2, 3] := by
      unfold sortAsc
      norm_num [List.insertionSort, List.orderedInsert]
    have hq0 : quantileOfSorted ([1, 2, 2, 3] : List ℚ) 0 4 = 1 := by
      unfold quantileOfSorted interp
      norm_num
    have hq1 : quantileOfSorted ([1, 2, 2, 3] : List ℚ) 1 4 = 7 / 4 := by
      unfold quantileOfSorted interp
      norm_num
    have hq2 : quantileOfSorted ([1, 2, 2, 3] : List ℚ) 2 4 = 2 := by
      unfold quantileOfSorted interp
      norm_num
    have hq3 : quantileOfSorted ([1, 2, 2, 3] : List ℚ) 3 4 = 9 / 4 := by
      unfold quantileOfSorted interp
      norm_num
    have hq4 : quantileOfSorted ([1, 2, 2, 3] : List ℚ) 4 4 = 3 := by
      unfold quantileOfSorted interp
      norm_num
    rw [havgs]
    unfold qcut4
    simp only [hsort, hq0, hq1, hq2, hq3, hq4]
    rw [if_pos (by norm_num)]
    rfl

/-- C10 (amended): the derivation stage is not a total function over
schema-valid inputs: on any table (with at least one row) whose rows all
share one average price — so that all quantile cut points coincide — the
`price_segment` derivation raises `ValueError` and the whole report aborts.
(A table with more than a quarter of duplicated values does not necessarily
fail; only duplicate quantile bin edges do — see the counterexample.) -/
theorem c10_amended_qcut_error (r : Row) (n : ℕ) (hn : 1 ≤ n) :
    qcut4 ((List.replicate n r).map precioPromedio) = none := by
  rw [List.map_replicate]
  exact qcut4_replicate_none _ n hn

/-- C10, witness: the amended theorem at four identical rows. -/
theorem c10_witness :
    1 ≤ 4 ∧ qcut4 ((List.replicate 4 rowC10).map precioPromedio) = none :=
  ⟨by norm_num, c10_amended_qcut_error rowC10 4 (by norm_num)⟩

/-! ## Claim C8: the premium tier -/

/-- C8 (confirmed): on a table of 10 pairwise distinct average prices, the
premium tier (rows whose average price strictly exceeds the 90th percentile
of the full table) contains exactly the single top row, and
`% Valor Premium` equals that row's value divided by the total sum of
average prices, times 100.  The threshold is the full-table quantile by
definition (`premiumThreshold`), never per group or filtered. -/
theorem c8_premium_top (tbl : List Row) (hlen : tbl.length = 10)
    (hdist : (tbl.map precioPromedio).Pairwise (· ≠ ·)) :
    ∃ r, premiumWorks tbl = [r] ∧
      (∀ x ∈ tbl, precioPromedio x ≤ precioPromedio r) ∧
      participacionPremium tbl =
        precioPromedio r / (tbl.map precioPromedio).sum * 100 := by
  have hvlen : (tbl.map precioPromedio).length = 10 := by
    rw [List.length_map, hlen]
  have hslen : (sortAsc (tbl.map precioPromedio)).length = 10 := by
    rw [sortAsc_length, hvlen]
  have hs' : (sortAsc (tbl.map precioPromedio)).Pairwise (· < ·) := sortAsc_strict hdist
  have hsle : (sortAsc (tbl.map precioPromedio)).Sorted (· ≤ ·) := sortAsc_sorted _
  have h8 : 9 * ((sortAsc (tbl.map precioPromedio)).length - 1) / 10 = 8 := by
    rw [hslen]
  have hqdef : premiumThreshold tbl =
      interp (sortAsc (tbl.map precioPromedio))
        (9 * ((sortAsc (tbl.map precioPromedio)).length - 1)) 10 := rfl
  have hge : (sortAsc (tbl.map precioPromedio)).getD 8 0 ≤ premiumThreshold tbl := by
    rw [hqdef]
    have := interp_ge hsle (9 * ((sortAsc (tbl.map precioPromedio)).length - 1)) 10
      (by rw [h8, hslen]; norm_num)
    rwa [h8] at this
  have hlt : ∀ _ : (8 : ℕ) + 1 < (sortAsc (tbl.map precioPromedio)).length,
      premiumThreshold tbl < (sortAsc (tbl.map precioPromedio)).getD (8 + 1) 0 := by
    intro h9
    rw [hqdef]
    have := interp_lt hs' (9 * ((sortAsc (tbl.map precioPromedio)).length - 1)) 10
      (by norm_num) (by rw [h8]; exact h9)
    rwa [h8] at this
  have hc : ((sortAsc (tbl.map precioPromedio)).countP fun x =>
      decide (x ≤ premiumThreshold tbl)) = 9 :=
    countP_le_of_sorted hs' (premiumThreshold tbl) 8 (by rw [hslen]; norm_num) hge hlt
  have hcv : ((tbl.map precioPromedio).countP fun x =>
      decide (x ≤ premiumThreshold tbl)) = 9 := by
    rw [← (sortAsc_perm _).countP_eq]
    exact hc
  have hlen1 : (premiumWorks tbl).length = 1 := by
    unfold premiumWorks
    rw [← List.countP_eq_length_filter]
    have hmap : (tbl.countP fun r => decide (premiumThreshold tbl < precioPromedio r)) =
        ((tbl.map precioPromedio).countP fun x => decide (premiumThreshold tbl < x)) := by
      rw [List.countP_map]
      rfl
    rw [hmap]
    have hnot : ((tbl.map precioPromedio).countP fun x =>
        decide (premiumThreshold tbl < x)) =
        ((tbl.map precioPromedio).countP fun x =>
          !decide (x ≤ premiumThreshold tbl)) := by
      apply List.countP_congr
      intro x _
      simp [not_le]
    rw [hnot]
    have hsum := countP_add_countP_not (tbl.map precioPromedio)
      (fun x => decide (x ≤ premiumThreshold tbl))
    omega
  obtain ⟨r, hr⟩ := List.length_eq_one.mp hlen1
  have hrmem : r ∈ premiumWorks tbl := by
    rw [hr]
    exact List.mem_cons_self _ _
  have hrtbl : r ∈ tbl ∧ premiumThreshold tbl < precioPromedio r := by
    have h := List.mem_filter.mp hrmem
    exact ⟨h.1, by simpa using h.2⟩
  have hmax : ∀ x ∈ tbl, precioPromedio x ≤ precioPromedio r := by
    intro x hx
    by_cases hq : premiumThreshold tbl < precioPromedio x
    · have hxmem : x ∈ premiumWorks tbl := List.mem_filter.mpr ⟨hx, by simpa using hq⟩
      rw [hr] at hxmem
      have hxr : x = r := by simpa using hxmem
      rw [hxr]
    · exact le_trans (not_lt.mp hq) (le_of_lt hrtbl.2)
  refine ⟨r, hr, hmax, ?_⟩
  unfold participacionPremium
  rw [hr]
  simp

/-- C8, witness: the premium-tier theorem applied to the ten-row table with
distinct average prices 10, 20, ..., 100. -/
theorem c8_witness :
    tblC8W.length = 10 ∧ (tblC8W.map precioPromedio).Pairwise (· ≠ ·) ∧
    (∃ r, premiumWorks tblC8W = [r] ∧
      (∀ x ∈ tblC8W, precioPromedio x ≤ precioPromedio r) ∧
      participacionPremium tblC8W =
        precioPromedio r / (tblC8W.map precioPromedio).sum * 100) := by
  have hlen : tblC8W.length = 10 := by decide
  have havgs : tblC8W.map precioPromedio =
      [10, 20, 30, 40, 50, 60, 70, 80, 90, 100] := by
    unfold tblC8W mkRow precioPromedio
    norm_num
  have hdist : (tblC8W.map precioPromedio).Pairwise (· ≠ ·) := by
    rw [havgs]
    exact (by decide : ([10, 20, 30, 40, 50, 60, 70, 80, 90, 100] : List ℚ).Nodup)
  exact ⟨hlen, hdist, c8_premium_top tblC8W hlen hdist⟩

/-! ## Claim C7: count sums and percentage sums -/

theorem sum_round2_counts {α : Type} [DecidableEq α] (keys : List α) :
    ((keys.dedup).map fun k =>
      round2 (((keys.countP fun x => decide (x = k)) : ℕ) : ℚ)).sum =
      ((keys.length : ℕ) : ℚ) := by
  have h1 : ((keys.dedup).map fun k =>
      round2 (((keys.countP fun x => decide (x = k)) : ℕ) : ℚ)) =
      (keys.dedup).map fun k => (((keys.countP fun x => decide (x = k)) : ℕ) : ℚ) :=
    List.map_congr_left fun k _ => round2_natCast _
  have h2 := sum_countP_eq_length keys keys.dedup (List.nodup_dedup keys)
    fun x hx => List.mem_dedup.mpr hx
  have h3 : ((keys.dedup).map fun k =>
      (((keys.countP fun x => decide (x = k)) : ℕ) : ℚ)).sum =
      ((((keys.dedup).map fun k => keys.countP fun x => decide (x = k)).sum : ℕ) : ℚ) := by
    rw [Nat.cast_list_sum, List.map_map]
    rfl
  rw [h1, h3, h2]

theorem filter_key_length {α : Type} [DecidableEq α] (tbl : List Row)
    (key : Row → α) (k : α) :
    (tbl.filter fun r => decide (key r = k)).length =
    (tbl.map key).countP fun x => decide (x = k) := by
  rw [← List.countP_eq_length_filter, List.countP_map]
  rfl

theorem sumGalleryObras_eq (tbl : List Row) :
    sumGalleryObras tbl = ((tbl.length : ℕ) : ℚ) := by
  unfold sumGalleryObras galleryAgg
  rw [List.map_map]
  have h : ((tbl.map (·.galeria)).dedup).map
      ((fun gs : String × GalleryStats => gs.2.numObras) ∘
        fun g => (g, galleryStatsFor tbl g)) =
      ((tbl.map (·.galeria)).dedup).map fun g =>
        round2 ((((tbl.map (·.galeria)).countP fun x => decide (x = g)) : ℕ) : ℚ) := by
    apply List.map_congr_left
    intro g _
    show (galleryStatsFor tbl g).numObras = _
    unfold galleryStatsFor
    simp only []
    rw [filter_key_length tbl (·.galeria) g]
  rw [h, sum_round2_counts, List.length_map]

theorem sumArtistObras_eq (tbl : List Row) :
    sumArtistObras tbl = ((tbl.length : ℕ) : ℚ) := by
  unfold sumArtistObras artistAgg
  rw [List.map_map]
  have h : ((tbl.map (·.artista)).dedup).map
      ((fun as : String × ArtistStats => as.2.numObras) ∘
        fun a => (a, artistStatsFor tbl a)) =
      ((tbl.map (·.artista)).dedup).map fun a =>
        round2 ((((tbl.map (·.artista)).countP fun x => decide (x = a)) : ℕ) : ℚ) := by
    apply List.map_congr_left
    intro a _
    show (artistStatsFor tbl a).numObras = _
    unfold artistStatsFor
    simp only []
    rw [filter_key_length tbl (·.artista) a]
  rw [h, sum_round2_counts, List.length_map]

theorem sumRegionObras_eq (tbl : List Row) :
    sumRegionObras tbl = ((tbl.length : ℕ) : ℚ) := by
  unfold sumRegionObras regionAgg
  rw [List.map_map]
  have h : ((tbl.map (·.pais)).dedup).map
      ((fun ps : String × RegionStats => ps.2.numObras) ∘
        fun p => (p, regionStatsFor tbl p)) =
      ((tbl.map (·.pais)).dedup).map fun p =>
        round2 ((((tbl.map (·.pais)).countP fun x => decide (x = p)) : ℕ) : ℚ) := by
    apply List.map_congr_left
    intro p _
    show (regionStatsFor tbl p).numObras = _
    unfold regionStatsFor
    simp only []
    rw [filter_key_length tbl (·.pais) p]
  rw [h, sum_round2_counts, List.length_map]

theorem sumTipoObras_eq (tbl : List Row) :
    sumTipoObras tbl = ((tbl.length : ℕ) : ℚ) := by
  unfold sumTipoObras tipoAgg
  rw [List.map_map]
  have h : ((tbl.map (·.tipoArtista)).dedup).map
      ((fun ts : String × TipoStats => ts.2.numObras) ∘
        fun t => (t, tipoStatsFor tbl t)) =
      ((tbl.map (·.tipoArtista)).dedup).map fun t =>
        round2 ((((tbl.map (·.tipoArtista)).countP fun x => decide (x = t)) : ℕ) : ℚ) := by
    apply List.map_congr_left
    intro t _
    show (tipoStatsFor tbl t).numObras = _
    unfold tipoStatsFor
    simp only []
    rw [filter_key_length tbl (·.tipoArtista) t]
  rw [h, sum_round2_counts, List.length_map]

theorem sumVentasObras_eq (tbl : List Row) :
    sumVentasObras tbl = ((tbl.length : ℕ) : ℚ) := by
  unfold sumVentasObras ventasAgg
  rw [List.map_map]
  have h : ((tbl.map (·.estadoVenta)).dedup).map
      ((fun es : String × VentasStats => es.2.numObras) ∘
        fun e => (e, ventasStatsFor tbl e)) =
      ((tbl.map (·.estadoVenta)).dedup).map fun e =>
        round2 ((((tbl.map (·.estadoVenta)).countP fun x => decide (x = e)) : ℕ) : ℚ) := by
    apply List.map_congr_left
    intro e _
    show (ventasStatsFor tbl e).numObras = _
    unfold ventasStatsFor
    simp only []
    rw [filter_key_length tbl (·.estadoVenta) e]
  rw [h, sum_round2_counts, List.length_map]

theorem rowsOfYear_length_countP (tbl : List Row) (y : ℚ) :
    (rowsOfYear tbl y).length =
    (tbl.filterMap (·.anio)).countP fun v => decide (v = y) := by
  unfold rowsOfYear
  induction tbl with
  | nil => simp
  | cons r t ih =>
      cases h : r.anio with
      | none =>
          simp only [List.filter_cons, List.filterMap_cons, h]
          simpa using ih
      | some v =>
          simp only [List.filter_cons, List.filterMap_cons, h, List.countP_cons]
          by_cases hv : v = y
          · simp [hv, ih]
          · simp [hv, ih, Option.some_inj]

theorem sumYearObras_eq (tbl : List Row) :
    sumYearObras tbl = (((tbl.filterMap (·.anio)).length : ℕ) : ℚ) := by
  unfold sumYearObras
  have hperm : List.Perm ((yearKeys tbl).map fun y => obrasAt tbl y)
      (((tbl.filterMap (·.anio)).dedup).map fun y => obrasAt tbl y) :=
    (sortAsc_perm _).map _
  rw [hperm.sum_eq]
  have h : ((tbl.filterMap (·.anio)).dedup).map (fun y => obrasAt tbl y) =
      ((tbl.filterMap (·.anio)).dedup).map fun y =>
        round2 ((((tbl.filterMap (·.anio)).countP fun v => decide (v = y)) : ℕ) : ℚ) := by
    apply List.map_congr_left
    intro y _
    unfold obrasAt
    rw [rowsOfYear_length_countP]
  rw [h, sum_round2_counts]

theorem allSegs_nodup : allSegs.Nodup := by decide

theorem sumSegObras_eq (tbl : List Row) (segs : List Seg)
    (hlen : segs.length ≤ tbl.length) :
    sumSegObras tbl segs = ((segs.length : ℕ) : ℚ) := by
  unfold sumSegObras
  have h : allSegs.map (fun b => (segStatsFor tbl segs b).numObras) =
      allSegs.map fun b => (((segs.countP fun x => decide (x = b)) : ℕ) : ℚ) := by
    apply List.map_congr_left
    intro b _
    show round2 (((((tbl.zip segs).filter fun rs =>
      decide (rs.2 = b)).map fun rs => precioPromedio rs.1).length : ℕ) : ℚ) = _
    rw [List.length_map, ← List.countP_eq_length_filter]
    have hsnd : (segs.countP fun x => decide (x = b)) =
        (tbl.zip segs).countP fun rs => decide (rs.2 = b) := by
      conv_lhs => rw [← List.map_snd_zip tbl segs hlen]
      rw [List.countP_map]
      rfl
    rw [← hsnd, round2_natCast]
  have h2 := sum_countP_eq_length segs allSegs allSegs_nodup
    fun s _ => by cases s <;> simp [allSegs]
  have h3 : (allSegs.map fun b =>
      (((segs.countP fun x => decide (x = b)) : ℕ) : ℚ)).sum =
      (((allSegs.map fun b => segs.countP fun x => decide (x = b)).sum : ℕ) : ℚ) := by
    rw [Nat.cast_list_sum, List.map_map]
    rfl
  rw [h, h3, h2]

theorem sum_map_div_mul_100 (l : List ℚ) (S : ℚ) :
    (l.map fun v => v / S * 100).sum = l.sum / S * 100 := by
  induction l with
  | nil => simp
  | cons a t ih =>
      simp only [List.map_cons, List.sum_cons, ih]
      ring

theorem sum_pct_of_sum_ne {l : List ℚ} (h : l.sum ≠ 0) :
    (l.map fun v => v / l.sum * 100).sum = 100 := by
  rw [sum_map_div_mul_100, div_self h]
  ring

theorem qcut4_some_length {vs : List ℚ} {segs : List Seg}
    (h : qcut4 vs = some segs) : segs.length = vs.length := by
  unfold qcut4 at h
  simp only [] at h
  split at h
  · injection h with h2
    rw [← h2, List.length_map]
  · cases h

theorem sumPctObrasSeg_eq (tbl : List Row) (segs : List Seg)
    (h : sumSegObras tbl segs ≠ 0) : sumPctObrasSeg tbl segs = 100 := by
  unfold sumPctObrasSeg pctObrasSeg
  have h100 := sum_pct_of_sum_ne
    (l := allSegs.map fun b => (segStatsFor tbl segs b).numObras) h
  rw [List.map_map] at h100
  exact h100

theorem sumPctValorSeg_eq (tbl : List Row) (segs : List Seg)
    (h : sumSegValor tbl segs ≠ 0) : sumPctValorSeg tbl segs = 100 := by
  unfold sumPctValorSeg pctValorSeg
  have h100 := sum_pct_of_sum_ne
    (l := allSegs.map fun b => (segStatsFor tbl segs b).valorTotal) h
  rw [List.map_map] at h100
  exact h100

theorem sumPctValorPais_eq (tbl : List Row)
    (h : sumRegionValor tbl ≠ 0) : sumPctValorPais tbl = 100 := by
  unfold sumPctValorPais pctValorPais
  have hS : sumRegionValor tbl =
      (((tbl.map (·.pais)).dedup).map fun p => (regionStatsFor tbl p).valorTotal).sum := by
    unfold sumRegionValor regionAgg
    rw [List.map_map]
    rfl
  rw [hS]
  have h100 := sum_pct_of_sum_ne
    (l := ((tbl.map (·.pais)).dedup).map fun p => (regionStatsFor tbl p).valorTotal)
    (by rw [← hS]; exact h)
  rw [List.map_map] at h100
  exact h100

/-- C7 (amended): for the gallery, artist, country, artist-type and
sale-status dimensions, and for the price-segment dimension (when the qcut
derivation succeeds), the per-group counts sum to the total row count.  For
the year dimension, the group counts sum to the number of rows with a
*valid* (numeric-coercible) year — invalid-year rows are dropped by
`groupby('Año')`, so when any are present that sum is strictly less than the
total row count (see the counterexample).  Each percentage-of-total column
(`% Obras` and `% Valor` of `segment_stats`, `% Valor` of `region_stats`)
sums to exactly 100 whenever its denominator is nonzero. -/
theorem c7_amended_group_sums (tbl : List Row) (segs : List Seg) (hne : tbl ≠ [])
    (hsegs : qcut4 (tbl.map precioPromedio) = some segs)
    (hsv : sumSegValor tbl segs ≠ 0) (hrv : sumRegionValor tbl ≠ 0) :
    sumGalleryObras tbl = ((tbl.length : ℕ) : ℚ) ∧
    sumArtistObras tbl = ((tbl.length : ℕ) : ℚ) ∧
    sumRegionObras tbl = ((tbl.length : ℕ) : ℚ) ∧
    sumTipoObras tbl = ((tbl.length : ℕ) : ℚ) ∧
    sumVentasObras tbl = ((tbl.length : ℕ) : ℚ) ∧
    sumSegObras tbl segs = ((tbl.length : ℕ) : ℚ) ∧
    sumYearObras tbl = (((tbl.filterMap (·.anio)).length : ℕ) : ℚ) ∧
    sumPctObrasSeg tbl segs = 100 ∧ sumPctValorSeg tbl segs = 100 ∧
    sumPctValorPais tbl = 100 := by
  have hseglen : segs.length = tbl.length := by
    rw [qcut4_some_length hsegs, List.length_map]
  have hsegsum : sumSegObras tbl segs = ((tbl.length : ℕ) : ℚ) := by
    rw [sumSegObras_eq tbl segs (le_of_eq hseglen), hseglen]
  refine ⟨sumGalleryObras_eq tbl, sumArtistObras_eq tbl, sumRegionObras_eq tbl,
    sumTipoObras_eq tbl, sumVentasObras_eq tbl, hsegsum, sumYearObras_eq tbl,
    ?_, sumPctValorSeg_eq tbl segs hsv, sumPctValorPais_eq tbl hrv⟩
  apply sumPctObrasSeg_eq
  rw [hsegsum]
  have : 0 < tbl.length := List.length_pos.mpr hne
  exact_mod_cast Nat.pos_iff_ne_zero.mp this

/-- C7, counterexample: the claim asserts the year dimension also satisfies
`sum(group.count) == total_row_count`; on the two-row table whose second row
has a non-coercible year, `groupby('Año')` drops that row and the year-group
counts sum to 1, not 2. -/
theorem c7_counterexample :
    sumYearObras tblC7X = 1 ∧ ((tblC7X.length : ℕ) : ℚ) = 2 ∧
    sumYearObras tblC7X ≠ ((tblC7X.length : ℕ) : ℚ) := by
  have hkeys : yearKeys tblC7X = [2018] := by
    unfold yearKeys tblC7X mkRow
    norm_num [sortAsc, List.insertionSort]
  have hobras : obrasAt tblC7X 2018 = 1 := by
    rw [obrasAt_eq_length]
    have h1 : (rowsOfYear tblC7X 2018).length = 1 := by decide
    rw [h1]
    norm_num
  have h1 : sumYearObras tblC7X = 1 := by
    unfold sumYearObras
    rw [hkeys]
    simp only [List.map_cons, List.map_nil, List.sum_cons, List.sum_nil]
    rw [hobras]
    norm_num
  have h2 : ((tblC7X.length : ℕ) : ℚ) = 2 := by
    have : tblC7X.length = 2 := by decide
    rw [this]
    norm_num
  refine ⟨h1, h2, ?_⟩
  rw [h1, h2]
  norm_num

/-- C7, witness: the amended theorem applied to a concrete four-row table
whose qcut column is `[Básico, Medio, Premium, Ultra Premium]`. -/
theorem c7_witness :
    tblC7W ≠ [] ∧
    qcut4 (tblC7W.map precioPromedio) = some segsC7W ∧
    sumSegValor tblC7W segsC7W ≠ 0 ∧ sumRegionValor tblC7W ≠ 0 ∧
    (sumGalleryObras tblC7W = ((tblC7W.length : ℕ) : ℚ) ∧
     sumArtistObras tblC7W = ((tblC7W.length : ℕ) : ℚ) ∧
     sumRegionObras tblC7W = ((tblC7W.length : ℕ) : ℚ) ∧
     sumTipoObras tblC7W = ((tblC7W.length : ℕ) : ℚ) ∧
     sumVentasObras tblC7W = ((tblC7W.length : ℕ) : ℚ) ∧
     sumSegObras tblC7W segsC7W = ((tblC7W.length : ℕ) : ℚ) ∧
     sumYearObras tblC7W = (((tblC7W.filterMap (·.anio)).length : ℕ) : ℚ) ∧
     sumPctObrasSeg tblC7W segsC7W = 100 ∧ sumPctValorSeg tblC7W segsC7W = 100 ∧
     sumPctValorPais tblC7W = 100) := by
  have hne : tblC7W ≠ [] := by decide
  have havgs : tblC7W.map precioPromedio = [10, 20, 30, 40] := by
    unfold tblC7W mkRow precioPromedio
    norm_num
  have hsort : sortAsc ([10, 20, 30, 40] : List ℚ) = [10, 20, 30, 40] := by
    unfold sortAsc
    norm_num [List.insertionSort, List.orderedInsert]
  have hq0 : quantileOfSorted ([10, 20, 30, 40] : List ℚ) 0 4 = 10 := by
    unfold quantileOfSorted interp
    norm_num
  have hq1 : quantileOfSorted ([10, 20, 30, 40] : List ℚ) 1 4 = 35 / 2 := by
    unfold quantileOfSorted interp
    norm_num
  have hq2 : quantileOfSorted ([10, 20, 30, 40] : List ℚ) 2 4 = 25 := by
    unfold quantileOfSorted interp
    norm_num
  have hq3 : quantileOfSorted ([10, 20, 30, 40] : List ℚ) 3 4 = 65 / 2 := by
    unfold quantileOfSorted interp
    norm_num
  have hq4 : quantileOfSorted ([10, 20, 30, 40] : List ℚ) 4 4 = 40 := by
    unfold quantileOfSorted interp
    norm_num
  have hsegs : qcut4 (tblC7W.map precioPromedio) = some segsC7W := by
    rw [havgs]
    unfold qcut4
    simp only [hsort, hq0, hq1, hq2, hq3, hq4]
    rw [if_pos (by norm_num)]
    unfold segLabel segsC7W
    norm_num
  have havg1 : precioPromedio (mkRow "A" "G1" 10 (some 2018) "Vendida") = 10 := by
    unfold mkRow precioPromedio
    norm_num
  have havg2 : precioPromedio (mkRow "B" "G2" 20 (some 2018) "Vendida") = 20 := by
    unfold mkRow precioPromedio
    norm_num
  have havg3 : precioPromedio (mkRow "C" "G3" 30 (some 2019) "Vendida") = 30 := by
    unfold mkRow precioPromedio
    norm_num
  have havg4 : precioPromedio (mkRow "D" "G4" 40 (some 2019) "Vendida") = 40 := by
    unfold mkRow precioPromedio
    norm_num
  have hvb : (segStatsFor tblC7W segsC7W Seg.basico).valorTotal = 10 := by
    show round2 ((((tblC7W.zip segsC7W).filter fun rs =>
      decide (rs.2 = Seg.basico)).map fun rs => precioPromedio rs.1).sum) = 10
    have hf : ((tblC7W.zip segsC7W).filter fun rs => decide (rs.2 = Seg.basico)) =
        [(mkRow "A" "G1" 10 (some 2018) "Vendida", Seg.basico)] := by decide
    rw [hf]
    simp only [List.map_cons, List.map_nil, List.sum_cons, List.sum_nil]
    rw [havg1, add_zero, round2_eq_self_int _ 10 (by norm_num)]
  have hvm : (segStatsFor tblC7W segsC7W Seg.medio).valorTotal = 20 := by
    show round2 ((((tblC7W.zip segsC7W).filter fun rs =>
      decide (rs.2 = Seg.medio)).map fun rs => precioPromedio rs.1).sum) = 20
    have hf : ((tblC7W.zip segsC7W).filter fun rs => decide (rs.2 = Seg.medio)) =
        [(mkRow "B" "G2" 20 (some 2018) "Vendida", Seg.medio)] := by decide
    rw [hf]
    simp only [List.map_cons, List.map_nil, List.sum_cons, List.sum_nil]
    rw [havg2, add_zero, round2_eq_self_int _ 20 (by norm_num)]
  have hvp : (segStatsFor tblC7W segsC7W Seg.premium).valorTotal = 30 := by
    show round2 ((((tblC7W.zip segsC7W).filter fun rs =>
      decide (rs.2 = Seg.premium)).map fun rs => precioPromedio rs.1).sum) = 30
    have hf : ((tblC7W.zip segsC7W).filter fun rs => decide (rs.2 = Seg.premium)) =
        [(mkRow "C" "G3" 30 (some 2019) "Vendida", Seg.premium)] := by decide
    rw [hf]
    simp only [List.map_cons, List.map_nil, List.sum_cons, List.sum_nil]
    rw [havg3, add_zero, round2_eq_self_int _ 30 (by norm_num)]
  have hvu : (segStatsFor tblC7W segsC7W Seg.ultraPremium).valorTotal = 40 := by
    show round2 ((((tblC7W.zip segsC7W).filter fun rs =>
      decide (rs.2 = Seg.ultraPremium)).map fun rs => precioPromedio rs.1).sum) = 40
    have hf : ((tblC7W.zip segsC7W).filter fun rs => decide (rs.2 = Seg.ultraPremium)) =
        [(mkRow "D" "G4" 40 (some 2019) "Vendida", Seg.ultraPremium)] := by decide
    rw [hf]
    simp only [List.map_cons, List.map_nil, List.sum_cons, List.sum_nil]
    rw [havg4, add_zero, round2_eq_self_int _ 40 (by norm_num)]
  have hsv : sumSegValor tblC7W segsC7W ≠ 0 := by
    unfold sumSegValor allSegs
    simp only [List.map_cons, List.map_nil, List.sum_cons, List.sum_nil]
    rw [hvb, hvm, hvp, hvu]
    norm_num
  have hrk : (regionStatsFor tblC7W "HK").valorTotal = 100 := by
    show round2 (((tblC7W.filter fun r =>
      decide (r.pais = "HK")).map precioPromedio).sum) = 100
    have hf : (tblC7W.filter fun r => decide (r.pais = "HK")) = tblC7W := by decide
    rw [hf]
    unfold tblC7W
    simp only [List.map_cons, List.map_nil, List.sum_cons, List.sum_nil]
    rw [havg1, havg2, havg3, havg4, add_zero]
    rw [show (10 : ℚ) + (20 + (30 + 40)) = 100 by norm_num]
    rw [round2_eq_self_int _ 100 (by norm_num)]
  have hrv : sumRegionValor tblC7W ≠ 0 := by
    unfold sumRegionValor regionAgg
    have hkeys : (tblC7W.map (·.pais)).dedup = ["HK"] := by decide
    rw [hkeys]
    simp only [List.map_cons, List.map_nil, List.sum_cons, List.sum_nil]
    rw [hrk]
    norm_num
  exact ⟨hne, hsegs, hsv, hrv,
    c7_amended_group_sums tblC7W segsC7W hne hsegs hsv hrv⟩

end ArtBasel
